import Mathlib

/-!
Shallow embedding of the schema-validator component
(`src/lib/validation.ts` and `src/lib/job-input-schema.ts`).

JSON values are modelled by the inductive `Json` (numbers as `Int`: every
numeric literal exercised by the component in these claims is integral).
The validator `validateSchemaWithZod` is modelled from the point where
`JSON.parse` has succeeded: `validateParsedSchema` takes the parsed value
together with the original source text (the text is consulted only by the
line-recovery heuristics, exactly as in the source).  JavaScript exceptions
(`TypeError` on `schemaId.replace` for a non-string id, property access on
`null`) are modelled with `Except String`.
-/

inductive Json where
  | null : Json
  | bool : Bool → Json
  | num : Int → Json
  | str : String → Json
  | arr : List Json → Json
  | obj : List (String × Json) → Json
deriving Repr

/-- JavaScript property lookup on an object's field list (first binding wins;
objects produced by `JSON.parse` have distinct keys). -/
def lookupField : List (String × Json) → String → Option Json
  | [], _ => none
  | (k, v) :: rest, key => if k = key then some v else lookupField rest key

/-- `x[key]` for our value domain: `undefined` is `none`.  Property access on
`null` throws in JS; the only place the source can do that
(`parsed.input_data`) handles `null` explicitly at its call site. -/
def getProp (j : Json) (key : String) : Option Json :=
  match j with
  | .obj fs => lookupField fs key
  | _ => none

/-- Property lookup narrowed to string values. -/
def getStrProp (j : Json) (key : String) : Option String :=
  match getProp j key with
  | some (.str s) => some s
  | _ => none

/-- JavaScript truthiness of a value. -/
def jsTruthy : Json → Bool
  | .null => false
  | .bool b => b
  | .num n => n != 0
  | .str s => s ≠ ""
  | .arr _ => true
  | .obj _ => true

/-- JavaScript `typeof` (for values representable as `Json`). -/
def jsTypeof : Json → String
  | .null => "object"
  | .bool _ => "boolean"
  | .num _ => "number"
  | .str _ => "string"
  | .arr _ => "object"
  | .obj _ => "object"

mutual

/-- String conversion used by template literals, restricted to the value
domain reachable here (objects display as `[object Object]`, arrays join
their elements with commas as in `Array.prototype.toString`, where a `null`
element displays as the empty string). -/
def jsDisplay : Json → String
  | .null => "null"
  | .bool b => if b then "true" else "false"
  | .num n => toString n
  | .str s => s
  | .arr xs => String.intercalate "," (jsDisplayArrElems xs)
  | .obj _ => "[object Object]"

/-- Elements of an array under `Array.prototype.toString`. -/
def jsDisplayArrElems : List Json → List String
  | [] => []
  | .null :: xs => "" :: jsDisplayArrElems xs
  | x :: xs => jsDisplay x :: jsDisplayArrElems xs

end

def jsonEscapeChar (c : Char) : String :=
  if c = '"' then "\\\""
  else if c = '\\' then "\\\\"
  else if c = '\n' then "\\n"
  else if c = '\r' then "\\r"
  else if c = '\t' then "\\t"
  else if c = '\x08' then "\\b"
  else if c = '\x0c' then "\\f"
  else String.singleton c

/-- JSON string quoting with the named escape sequences. -/
def jsonQuote (s : String) : String :=
  "\"" ++ String.join (s.data.map jsonEscapeChar) ++ "\""

mutual

/-- `JSON.stringify` (no replacer, no spacing) for `Json` values.  Control
characters other than the named escapes are left unescaped: no value in this
development contains them. -/
def jsonStringify : Json → String
  | .null => "null"
  | .bool b => if b then "true" else "false"
  | .num n => toString n
  | .str s => jsonQuote s
  | .arr xs => "[" ++ String.intercalate "," (jsonStringifyList xs) ++ "]"
  | .obj fs => "\x7b" ++ String.intercalate "," (jsonStringifyFields fs) ++ "\x7d"

def jsonStringifyList : List Json → List String
  | [] => []
  | x :: xs => jsonStringify x :: jsonStringifyList xs

def jsonStringifyFields : List (String × Json) → List String
  | [] => []
  | (k, v) :: fs => (jsonQuote k ++ ":" ++ jsonStringify v) :: jsonStringifyFields fs

end

/-- Whitespace recognised by JavaScript `parseInt` / the regex class `\s`
(ASCII part; none of the inputs here contain exotic Unicode spaces). -/
def jsWhitespaceChar (c : Char) : Bool :=
  c = ' ' || c = '\t' || c = '\n' || c = '\r' || c = '\x0c' || c = '\x0b'

def digitsToNat (cs : List Char) : Nat :=
  cs.foldl (fun a c => a * 10 + (c.toNat - 48)) 0

def parseIntDigits (cs : List Char) : Int :=
  let ds := cs.takeWhile Char.isDigit
  if ds.isEmpty then 0 else (digitsToNat ds : Int)

def parseIntOr0Aux (cs : List Char) : Int :=
  match cs with
  | '-' :: rest => - parseIntDigits rest
  | '+' :: rest => parseIntDigits rest
  | _ => parseIntDigits cs

/-- `parseInt(s, 10)` followed by the source's `isNaN(parsed) ? 0 : parsed`
fallback (see `parseValidationValue`): leading whitespace skipped, optional
sign, longest leading digit run; no digits means `NaN`, hence `0`. -/
def parseIntOr0 (s : String) : Int :=
  parseIntOr0Aux (s.data.dropWhile jsWhitespaceChar)

/-- Is `pat` a prefix of `s` (character lists)? -/
def isPrefixL : List Char → List Char → Bool
  | [], _ => true
  | _ :: _, [] => false
  | a :: as, b :: bs => a == b && isPrefixL as bs

/-- First index at which `pat` occurs as a substring (like
`String.prototype.indexOf`). -/
def findSubIdx (pat : List Char) : List Char → Option Nat
  | [] => if isPrefixL pat [] then some 0 else none
  | c :: rest =>
    if isPrefixL pat (c :: rest) then some 0
    else (findSubIdx pat rest).map (· + 1)

/-- First index at which the predicate matches the suffix starting there
(models an unanchored regex search). -/
def findIdxWhere (p : List Char → Bool) : List Char → Option Nat
  | [] => if p [] then some 0 else none
  | c :: rest =>
    if p (c :: rest) then some 0
    else (findIdxWhere p rest).map (· + 1)

def countNewlines (cs : List Char) : Nat :=
  cs.foldl (fun a c => if c = '\n' then a + 1 else a) 0

def strHasSubAux (pat : List Char) : List Char → Bool
  | [] => isPrefixL pat []
  | c :: rest => isPrefixL pat (c :: rest) || strHasSubAux pat rest

/-- Substring test used only in counterexample statements. -/
def strHasSub (s pat : String) : Bool :=
  strHasSubAux pat.data s.data

/-- `getLine` of `validation.ts`: locate the first occurrence of the quoted
key in the source text and count the newlines before it (1-based). -/
def getLine (key : String) (input : String) : Option Nat :=
  if key = "" then none
  else
    match findSubIdx ("\"" ++ key ++ "\"").data input.data with
    | none => none
    | some idx => some (countNewlines (input.data.take idx) + 1)

/-! ## Validation result type (`ValidationResult` of `validation.ts`) -/

/-- One entry of the `errors` array: `{ message: string; line?: number }`. -/
structure ErrEntry where
  message : String
  line : Option Nat
deriving Repr, DecidableEq

/-- `ValidationResult`.  `parsedSchemas` is optional in the source
(`parsedSchemas?`); parsed field descriptions are `Json` objects with the
unrecognised keys stripped, exactly as `zod`'s non-strict object parse
returns them. -/
structure ValidationResult where
  valid : Bool
  errors : List ErrEntry
  parsedSchemas : Option (List Json)
deriving Repr

/-! ## The zod contracts of `job-input-schema.ts`

Each `z.object(...)` schema is embedded as a parse function
`Json → Option Json`: `some` returns the parsed value (shape keys only, in
shape order, absent optional keys omitted — zod's "strip" behaviour),
`none` is a parse failure.  `a.or(b)` (`z.union`) tries the options in
order and returns the first success; when every option fails, the zod error
consists of the single `invalid_union` issue (path `[]`, message
`Invalid input`), which is how `ZodUnion` reports in zod 3. -/

/-- `z.string()`. -/
def pStr : Json → Option Json
  | .str s => some (.str s)
  | _ => none

/-- `z.string().min(1)`. -/
def pStrMin1 : Json → Option Json
  | .str s => if s.length ≥ 1 then some (.str s) else none
  | _ => none

/-- `z.boolean()`. -/
def pBool : Json → Option Json
  | .bool b => some (.bool b)
  | _ => none

/-- `z.number()`. -/
def pNum : Json → Option Json
  | .num n => some (.num n)
  | _ => none

/-- `z.enum([v])` / `z.literal(v)` for a single string value. -/
def pEnum1 (v : String) : Json → Option Json
  | .str s => if s = v then some (.str s) else none
  | _ => none

/-- `z.union` over a list of options: first success wins. -/
def pUnion : List (Json → Option Json) → Json → Option Json
  | [], _ => none
  | p :: ps, j =>
    match p j with
    | some v => some v
    | none => pUnion ps j

def mapOption (p : Json → Option Json) : List Json → Option (List Json)
  | [] => some []
  | x :: xs =>
    match p x with
    | none => none
    | some y =>
      match mapOption p xs with
      | none => none
      | some ys => some (y :: ys)

/-- `z.array(p)`. -/
def pArrOf (p : Json → Option Json) : Json → Option Json
  | .arr xs => (mapOption p xs).map Json.arr
  | _ => none

/-- `z.array(p).min(1)`. -/
def pArrMin1Of (p : Json → Option Json) : Json → Option Json
  | .arr xs => if xs.length ≥ 1 then (mapOption p xs).map Json.arr else none
  | _ => none

/-- One key of a `z.object` shape: key name, value schema, required?.
(`required = false` models `.optional()` on the value schema.) -/
def FieldSpec : Type := String × (Json → Option Json) × Bool

/-- Parse the fields of an object against a shape, producing the parsed
bindings in shape order; an absent optional key is omitted from the
output. -/
def parseFieldsAux : List FieldSpec → List (String × Json) → Option (List (String × Json))
  | [], _ => some []
  | (name, p, required) :: rest, fs =>
    match lookupField fs name with
    | some v =>
      match p v with
      | some w => (parseFieldsAux rest fs).map (fun tl => (name, w) :: tl)
      | none => none
    | none =>
      if required then none else parseFieldsAux rest fs

/-- `z.object(shape)`: rejects any non-object (zod distinguishes arrays and
`null` from plain objects), strips unknown keys. -/
def parseShape (shape : List FieldSpec) (j : Json) : Option Json :=
  match j with
  | .obj fs => (parseFieldsAux shape fs).map Json.obj
  | _ => none

/-! ### Validation-rule schemas -/

/-- `optionalValidationSchema`. -/
def optionalValidationSchema : Json → Option Json :=
  parseShape [("validation", pEnum1 "optional", true),
              ("value", pUnion [pStr, pBool], false)]

/-- `minValidationSchema`. -/
def minValidationSchema : Json → Option Json :=
  parseShape [("validation", pEnum1 "min", true), ("value", pStr, true)]

/-- `maxValidationSchema`. -/
def maxValidationSchema : Json → Option Json :=
  parseShape [("validation", pEnum1 "max", true), ("value", pStr, true)]

/-- `formatUrlValidationSchema`. -/
def formatUrlValidationSchema : Json → Option Json :=
  parseShape [("validation", pEnum1 "format", true), ("value", pEnum1 "url", true)]

/-- `formatEmailValidationSchema`. -/
def formatEmailValidationSchema : Json → Option Json :=
  parseShape [("validation", pEnum1 "format", true), ("value", pEnum1 "email", true)]

/-- `formatIntegerValidationSchema`. -/
def formatIntegerValidationSchema : Json → Option Json :=
  parseShape [("validation", pEnum1 "format", true), ("value", pEnum1 "integer", true)]

/-- `formatNonEmptyValidationSchema`. -/
def formatNonEmptyValidationSchema : Json → Option Json :=
  parseShape [("validation", pEnum1 "format", true), ("value", pEnum1 "nonempty", true)]

/-- `formatTelPatternValidationSchema`. -/
def formatTelPatternValidationSchema : Json → Option Json :=
  parseShape [("validation", pEnum1 "format", true), ("value", pEnum1 "tel-pattern", true)]

/-- `acceptValidationSchema`. -/
def acceptValidationSchema : Json → Option Json :=
  parseShape [("validation", pEnum1 "accept", true), ("value", pStr, true)]

/-! ### The 22 field-type contracts -/

/-- `jobInputTextSchema`. -/
def jobInputTextSchema : Json → Option Json :=
  parseShape
    [("id", pStrMin1, true),
     ("type", pEnum1 "text", true),
     ("name", pStrMin1, true),
     ("data", parseShape
        [("placeholder", pStr, false),
         ("description", pStr, false),
         ("default", pStr, false)], false),
     ("validations", pArrOf (pUnion
        [optionalValidationSchema, minValidationSchema, maxValidationSchema,
         formatNonEmptyValidationSchema, formatUrlValidationSchema,
         formatEmailValidationSchema]), false)]

/-- `jobInputTextareaSchema`. -/
def jobInputTextareaSchema : Json → Option Json :=
  parseShape
    [("id", pStrMin1, true),
     ("type", pEnum1 "textarea", true),
     ("name", pStrMin1, true),
     ("data", parseShape
        [("placeholder", pStr, false),
         ("description", pStr, false),
         ("default", pStr, false)], false),
     ("validations", pArrOf (pUnion
        [optionalValidationSchema, minValidationSchema, maxValidationSchema,
         formatNonEmptyValidationSchema]), false)]

/-- `jobInputNumberSchema`. -/
def jobInputNumberSchema : Json → Option Json :=
  parseShape
    [("id", pStrMin1, true),
     ("type", pEnum1 "number", true),
     ("name", pStrMin1, true),
     ("data", parseShape
        [("placeholder", pStr, false),
         ("description", pStr, false),
         ("default", pUnion [pStr, pNum], false)], false),
     ("validations", pArrOf (pUnion
        [optionalValidationSchema, minValidationSchema, maxValidationSchema,
         formatIntegerValidationSchema]), false)]

/-- `jobInputBooleanSchema`. -/
def jobInputBooleanSchema : Json → Option Json :=
  parseShape
    [("id", pStrMin1, true),
     ("type", pEnum1 "boolean", true),
     ("name", pStrMin1, true),
     ("data", parseShape
        [("description", pStr, false),
         ("default", pBool, false)], false),
     ("validations", pArrOf (pUnion [optionalValidationSchema]), false)]

/-- `jobInputOptionSchema`. -/
def jobInputOptionSchema : Json → Option Json :=
  parseShape
    [("id", pStrMin1, true),
     ("type", pEnum1 "option", true),
     ("name", pStrMin1, true),
     ("data", parseShape
        [("values", pArrMin1Of pStrMin1, true),
         ("description", pStr, false)], true),
     ("validations", pArrOf (pUnion
        [optionalValidationSchema, minValidationSchema, maxValidationSchema]), false)]

/-- `jobInputFileSchema`. -/
def jobInputFileSchema : Json → Option Json :=
  parseShape
    [("id", pStrMin1, true),
     ("type", pEnum1 "file", true),
     ("name", pStrMin1, true),
     ("data", parseShape
        [("description", pStr, false),
         ("outputFormat", pEnum1 "url", true)], true),
     ("validations", pArrOf (pUnion
        [optionalValidationSchema, acceptValidationSchema,
         minValidationSchema, maxValidationSchema]), false)]

/-- `jobInputNoneSchema`. -/
def jobInputNoneSchema : Json → Option Json :=
  parseShape
    [("id", pStrMin1, true),
     ("type", pEnum1 "none", true),
     ("name", pStrMin1, true),
     ("data", parseShape [("description", pStrMin1, false)], false)]

/-- `jobInputEmailSchema`. -/
def jobInputEmailSchema : Json → Option Json :=
  parseShape
    [("id", pStrMin1, true),
     ("type", pEnum1 "email", true),
     ("name", pStrMin1, true),
     ("data", parseShape
        [("placeholder", pStr, false),
         ("description", pStr, false),
         ("default", pStr, false)], false),
     ("validations", pArrOf (pUnion
        [optionalValidationSchema, minValidationSchema, maxValidationSchema,
         formatEmailValidationSchema]), false)]

/-- `jobInputPasswordSchema`. -/
def jobInputPasswordSchema : Json → Option Json :=
  parseShape
    [("id", pStrMin1, true),
     ("type", pEnum1 "password", true),
     ("name", pStrMin1, true),
     ("data", parseShape
        [("placeholder", pStr, false),
         ("description", pStr, false)], false),
     ("validations", pArrOf (pUnion
        [optionalValidationSchema, minValidationSchema, maxValidationSchema]), false)]

/-- `jobInputTelSchema`. -/
def jobInputTelSchema : Json → Option Json :=
  parseShape
    [("id", pStrMin1, true),
     ("type", pEnum1 "tel", true),
     ("name", pStrMin1, true),
     ("data", parseShape
        [("placeholder", pStr, false),
         ("description", pStr, false),
         ("default", pStr, false)], false),
     ("validations", pArrOf (pUnion
        [optionalValidationSchema, minValidationSchema, maxValidationSchema,
         formatTelPatternValidationSchema]), false)]

/-- `jobInputUrlSchema`. -/
def jobInputUrlSchema : Json → Option Json :=
  parseShape
    [("id", pStrMin1, true),
     ("type", pEnum1 "url", true),
     ("name", pStrMin1, true),
     ("data", parseShape
        [("placeholder", pStr, false),
         ("description", pStr, false),
         ("default", pStr, false)], false),
     ("validations", pArrOf (pUnion
        [optionalValidationSchema, minValidationSchema, maxValidationSchema,
         formatUrlValidationSchema]), false)]

/-- `jobInputDateSchema`. -/
def jobInputDateSchema : Json → Option Json :=
  parseShape
    [("id", pStrMin1, true),
     ("type", pEnum1 "date", true),
     ("name", pStrMin1, true),
     ("data", parseShape
        [("description", pStr, false),
         ("default", pStr, false)], false),
     ("validations", pArrOf (pUnion
        [optionalValidationSchema, minValidationSchema, maxValidationSchema]), false)]

/-- `jobInputDatetimeLocalSchema`. -/
def jobInputDatetimeLocalSchema : Json → Option Json :=
  parseShape
    [("id", pStrMin1, true),
     ("type", pEnum1 "datetime-local", true),
     ("name", pStrMin1, true),
     ("data", parseShape
        [("description", pStr, false),
         ("default", pStr, false)], false),
     ("validations", pArrOf (pUnion
        [optionalValidationSchema, minValidationSchema, maxValidationSchema]), false)]

/-- `jobInputTimeSchema`. -/
def jobInputTimeSchema : Json → Option Json :=
  parseShape
    [("id", pStrMin1, true),
     ("type", pEnum1 "time", true),
     ("name", pStrMin1, true),
     ("data", parseShape
        [("description", pStr, false),
         ("default", pStr, false)], false),
     ("validations", pArrOf (pUnion
        [optionalValidationSchema, minValidationSchema, maxValidationSchema]), false)]

/-- `jobInputMonthSchema`. -/
def jobInputMonthSchema : Json → Option Json :=
  parseShape
    [("id", pStrMin1, true),
     ("type", pEnum1 "month", true),
     ("name", pStrMin1, true),
     ("data", parseShape
        [("description", pStr, false),
         ("default", pStr, false)], false),
     ("validations", pArrOf (pUnion
        [optionalValidationSchema, minValidationSchema, maxValidationSchema]), false)]

/-- `jobInputWeekSchema`. -/
def jobInputWeekSchema : Json → Option Json :=
  parseShape
    [("id", pStrMin1, true),
     ("type", pEnum1 "week", true),
     ("name", pStrMin1, true),
     ("data", parseShape
        [("description", pStr, false),
         ("default", pStr, false)], false),
     ("validations", pArrOf (pUnion
        [optionalValidationSchema, minValidationSchema, maxValidationSchema]), false)]

/-- `jobInputColorSchema`. -/
def jobInputColorSchema : Json → Option Json :=
  parseShape
    [("id", pStrMin1, true),
     ("type", pEnum1 "color", true),
     ("name", pStrMin1, true),
     ("data", parseShape
        [("description", pStr, false),
         ("default", pStr, false)], false),
     ("validations", pArrOf (pUnion [optionalValidationSchema]), false)]

/-- `jobInputRangeSchema`. -/
def jobInputRangeSchema : Json → Option Json :=
  parseShape
    [("id", pStrMin1, true),
     ("type", pEnum1 "range", true),
     ("name", pStrMin1, true),
     ("data", parseShape
        [("min", pUnion [pStr, pNum], false),
         ("max", pUnion [pStr, pNum], false),
         ("step", pUnion [pStr, pNum], false),
         ("description", pStr, false),
         ("default", pUnion [pStr, pNum], false)], true),
     ("validations", pArrOf (pUnion
        [optionalValidationSchema, minValidationSchema, maxValidationSchema]), false)]

/-- `jobInputHiddenSchema`. -/
def jobInputHiddenSchema : Json → Option Json :=
  parseShape
    [("id", pStrMin1, true),
     ("type", pEnum1 "hidden", true),
     ("name", pStrMin1, true),
     ("data", parseShape [("value", pStrMin1, true)], true)]

/-- `jobInputSearchSchema`. -/
def jobInputSearchSchema : Json → Option Json :=
  parseShape
    [("id", pStrMin1, true),
     ("type", pEnum1 "search", true),
     ("name", pStrMin1, true),
     ("data", parseShape
        [("placeholder", pStr, false),
         ("description", pStr, false),
         ("default", pStr, false)], false),
     ("validations", pArrOf (pUnion
        [optionalValidationSchema, minValidationSchema, maxValidationSchema,
         formatNonEmptyValidationSchema]), false)]

/-- `jobInputCheckboxSchema`. -/
def jobInputCheckboxSchema : Json → Option Json :=
  parseShape
    [("id", pStrMin1, true),
     ("type", pEnum1 "checkbox", true),
     ("name", pStrMin1, true),
     ("data", parseShape
        [("description", pStr, false),
         ("default", pBool, false)], false),
     ("validations", pArrOf (pUnion [optionalValidationSchema]), false)]

/-- `jobInputRadioSchema`. -/
def jobInputRadioSchema : Json → Option Json :=
  parseShape
    [("id", pStrMin1, true),
     ("type", pEnum1 "radio", true),
     ("name", pStrMin1, true),
     ("data", parseShape
        [("values", pArrMin1Of pStrMin1, true),
         ("default", pStr, false),
         ("description", pStr, false)], true),
     ("validations", pArrOf (pUnion
        [optionalValidationSchema, minValidationSchema, maxValidationSchema]), false)]

/-- `jobInputSchema` — the union of all 22 contracts, in source order.
`.parse` is modelled as `Json → Option Json` (first successful branch). -/
def jobInputSchemaParse : Json → Option Json :=
  pUnion
    [jobInputTextSchema, jobInputTextareaSchema, jobInputNumberSchema,
     jobInputBooleanSchema, jobInputOptionSchema, jobInputFileSchema,
     jobInputNoneSchema, jobInputEmailSchema, jobInputPasswordSchema,
     jobInputTelSchema, jobInputUrlSchema, jobInputDateSchema,
     jobInputDatetimeLocalSchema, jobInputTimeSchema, jobInputMonthSchema,
     jobInputWeekSchema, jobInputColorSchema, jobInputRangeSchema,
     jobInputHiddenSchema, jobInputSearchSchema, jobInputCheckboxSchema,
     jobInputRadioSchema]

/-- The 22 recognised `type` discriminant values, in declaration order
(`ValidJobInputTypes`). -/
def recognizedTypes : List String :=
  ["text", "textarea", "number", "boolean", "option", "file", "none",
   "email", "password", "tel", "url", "date", "datetime-local", "time",
   "month", "week", "color", "range", "hidden", "search", "checkbox",
   "radio"]

/-! ## The validation pipeline of `validation.ts` -/

/-- Remove every binding of a key (JS `delete normalized.validations`,
order of the remaining keys preserved as with object spread). -/
def removeField (fs : List (String × Json)) (key : String) : List (String × Json) :=
  fs.filter (fun kv => kv.1 ≠ key)

/-- `normalizeSchemaForValidation`: a candidate whose `validations` is
explicitly `null` is rewritten as if the attribute were absent; everything
else (including non-objects) passes through unchanged. -/
def normalizeSchemaForValidation (schema : Json) : Json :=
  match schema with
  | .obj fs =>
    match lookupField fs "validations" with
    | some .null => .obj (removeField fs "validations")
    | _ => .obj fs
  | other => other

/-- `schema.id || 'unknown'` as displayed inside a template literal. -/
def fieldIdDisplay (schema : Json) : String :=
  match getProp schema "id" with
  | some v => if jsTruthy v then jsDisplay v else "unknown"
  | none => "unknown"

/-- Does the char-list start with `"id":` then `\s*` then `"<id>"`?
(The source builds the regex `"id":\s*"<escaped id>"`; the escaping makes
the id match literally, so the abstract semantics is this literal match.) -/
def matchesIdPatternAt (idChars : List Char) (s : List Char) : Bool :=
  isPrefixL ("\"id\":".data) s &&
  isPrefixL ("\"".data ++ idChars ++ "\"".data)
    ((s.drop 5).dropWhile jsWhitespaceChar)

/-- Does the char-list start with `"validations"` then `\s*` then `:`?
(The source regex `/"validations"\s*:/`.) -/
def matchesValidationsKeyAt (s : List Char) : Bool :=
  isPrefixL ("\"validations\"".data) s &&
  isPrefixL [':'] ((s.drop 13).dropWhile jsWhitespaceChar)

/-- `getValidationsLine`: best-effort line of the `validations` key scoped
to the candidate's `id`.  When `schema.id` is truthy but not a string, the
source calls `schemaId.replace` on it and JavaScript throws a `TypeError`,
modelled as `Except.error`. -/
def getValidationsLine (schema : Json) (input : String) : Except String (Option Nat) :=
  match getProp schema "id" with
  | some v =>
    if jsTruthy v then
      match v with
      | .str s =>
        match findIdxWhere (matchesIdPatternAt s.data) input.data with
        | none => .ok (getLine "validations" input)
        | some idx =>
          match findIdxWhere matchesValidationsKeyAt (input.data.drop idx) with
          | none => .ok (getLine "validations" input)
          | some vIdx =>
            .ok (some (countNewlines (input.data.take (idx + vIdx)) + 1))
      | _ => .error "TypeError: schemaId.replace is not a function"
    else .ok (getLine "validations" input)
  | none => .ok (getLine "validations" input)

/-- `value === true || value === 'true'` in `formatCorrectValidationsArray`. -/
def isTrueLike : Json → Bool
  | .bool true => true
  | .str s => s = "true"
  | _ => false

/-- `formatCorrectValidationsArray`. -/
def formatCorrectValidationsArray (key : String) (value : Json) : String :=
  if key = "optional" then
    if isTrueLike value then "[\x7b\"validation\": \"optional\"\x7d]"
    else "[\x7b\"validation\": \"optional\", \"value\": \"" ++ jsDisplay value ++ "\"\x7d]"
  else "[\x7b\"validation\": \"" ++ key ++ "\", \"value\": \"" ++ jsDisplay value ++ "\"\x7d]"

/-- The rule-kind vocabulary checked by `handleValidationsObjectError`
(`validKeys`). -/
def validKeys : List String := ["optional", "min", "max", "format", "accept"]

/-- Message prefix of the "`validations` is an object" heuristic error (the
full message is this prefix followed by the corrected array form). -/
def validationsObjectMsgPrefix (index : Nat) (schema : Json) (kvs : List (String × Json)) : String :=
  s!"Schema {index + 1} (field: \"{fieldIdDisplay schema}\"): Field \"validations\" must be an array, not an object. Found: {jsonStringify (Json.obj kvs)}. Correct format: "

/-- `handleValidationsObjectError`: if none of the object's keys is a known
rule kind, defer to zod (`ok none`); otherwise build the corrective message
from the first key (JS `Object.keys` order is modelled as the binding
order; no integer-like keys occur in the rule vocabulary). -/
def handleValidationsObjectError (schema : Json) (kvs : List (String × Json))
    (index : Nat) (input : String) : Except String (Option ErrEntry) :=
  if ¬ (kvs.map Prod.fst).any (fun k => validKeys.contains k) then .ok none
  else
    match kvs with
    | [] => .ok none
    | (firstKey, value) :: _ => do
      let line ← getValidationsLine schema input
      .ok (some ⟨validationsObjectMsgPrefix index schema kvs
                  ++ formatCorrectValidationsArray firstKey value, line⟩)

/-- Message of the "`validations` is a primitive" heuristic error. -/
def validationsPrimitiveMsg (index : Nat) (schema : Json) (v : Json) : String :=
  s!"Schema {index + 1} (field: \"{fieldIdDisplay schema}\"): Field \"validations\" must be an array or omitted. Found: {jsTypeof v}. Example: [\x7b\"validation\": \"optional\"\x7d] or omit the field entirely."

/-- `validateValidationsField`: the pre-validation heuristic.  `undefined`
or array `validations` pass (`ok none`); a non-array object goes to
`handleValidationsObjectError` (for the unreachable-after-normalization
value `null`, `typeof null === 'object'` sends the source there too, where
`Object.keys(null)` throws); any other present value yields the
"must be an array or omitted" error. -/
def validateValidationsField (schema : Json) (index : Nat) (input : String) :
    Except String (Option ErrEntry) :=
  match schema with
  | .null | .bool _ | .num _ | .str _ => .ok none
  | _ =>
    match getProp schema "validations" with
    | none => .ok none
    | some v =>
      match v with
      | .arr _ => .ok none
      | .obj kvs => handleValidationsObjectError schema kvs index input
      | .null => .error "TypeError: Cannot convert undefined or null to object"
      | _ => do
        let line ← getValidationsLine schema input
        .ok (some ⟨validationsPrimitiveMsg index schema v, line⟩)

/-! ### Zod error extraction and enrichment

The only zod parse the validator runs is `jobInputSchema.parse`, a plain
`z.union`; in zod 3 a failing union parse raises a `ZodError` holding the
single issue `{ code: 'invalid_union', path: [], message: 'Invalid input' }`.
The enrichment switch is embedded in full; its other cases are unreachable
through `validateSchemaWithZod` but are part of the source. -/

/-- The metadata of a zod issue consumed by `enhanceZodErrorMessage`
(fields that a given issue kind lacks are `none`). -/
structure ZodIssueInfo where
  code : String
  path : List String
  message : String
  expected : Option String
  received : Option String
  options : Option (List String)
  minimum : Option Int
  issueType : Option String
deriving Repr

/-- The single issue raised by a failing top-level `z.union` parse. -/
def invalidUnionIssue : ZodIssueInfo :=
  ⟨"invalid_union", [], "Invalid input", none, none, none, none, none⟩

/-- `handleInvalidTypeError`. -/
def handleInvalidTypeError (error : ZodIssueInfo) (fieldName : String) (schema : Json) : String :=
  if error.received = some "null" then
    s!"Field \"{fieldName}\" cannot be null. Use an empty array [] or omit the field instead."
  else if error.expected = some "array" && error.received = some "object"
          && fieldName = "validations" then
    let foundVal := jsonStringify ((getProp schema "validations").getD Json.null)
    "Field \"validations\" must be an array of validation objects, not a plain object. "
      ++ "Example: [\x7b\"validation\": \"optional\"\x7d] or [\x7b\"validation\": \"min\", \"value\": \"5\"\x7d]. "
      ++ s!"Found: {foundVal}"
  else
    let expectedStr := (error.expected).getD "undefined"
    let receivedStr := (error.received).getD "undefined"
    s!"Field \"{fieldName}\" has invalid type. Expected {expectedStr}, but received {receivedStr}."

/-- `handleTooSmallError` (an absent `minimum` would display as JS
`undefined`). -/
def handleTooSmallError (error : ZodIssueInfo) (fieldName : String) : String :=
  let minVal := ((error.minimum).map toString).getD "undefined"
  if error.issueType = some "array" then
    s!"Field \"{fieldName}\" array must have at least {minVal} element(s)."
  else
    s!"Field \"{fieldName}\" must be at least {minVal} character(s) long."

/-- `enhanceZodErrorMessage`. -/
def enhanceZodErrorMessage (error : ZodIssueInfo) (fieldName : String) (schema : Json) : String :=
  if error.code = "invalid_type" then handleInvalidTypeError error fieldName schema
  else if error.code = "invalid_enum_value" then
    let receivedStr := (error.received).getD "undefined"
    let joined := ((error.options).map (String.intercalate ", ")).getD ""
    let optionsStr := if joined ≠ "" then joined else "unknown options"
    s!"Field \"{fieldName}\" has invalid value \"{receivedStr}\". Must be one of: {optionsStr}."
  else if error.code = "too_small" then handleTooSmallError error fieldName
  else if error.code = "invalid_string" then
    let lowered := error.message.toLower
    s!"Field \"{fieldName}\" {lowered}."
  else if error.code = "invalid_union" then
    s!"Field \"{fieldName}\" {error.message}. Check that the structure matches the expected format."
  else error.message

/-- `extractZodErrors` (the `zodError.errors` branch; a `ZodError` always
carries at least one issue, so the fallback branch of the source is
unreachable). -/
def extractZodErrors (issues : List ZodIssueInfo) (schema : Json)
    (index : Nat) (input : String) : List ErrEntry :=
  issues.map fun error =>
    let fieldPath := String.intercalate "." error.path
    let fieldName :=
      if fieldPath ≠ "" then fieldPath
      else
        match error.path.head? with
        | some h => if h ≠ "" then h else "unknown"
        | none => "unknown"
    ⟨s!"Schema {index + 1}: {enhanceZodErrorMessage error fieldName schema}",
     getLine ((error.path.head?).getD "") input⟩

/-! ### Per-candidate processing and the result builder -/

/-- The body of the `forEach` over candidates, after normalization: run the
pre-validation heuristic, then (unless it fired) the zod parse; returns the
errors contributed and the parsed field description, if any. -/
def processNormalizedSchema (normalized : Json) (index : Nat) (input : String) :
    Except String (List ErrEntry × Option Json) := do
  let pre ← validateValidationsField normalized index input
  match pre with
  | some e => return ([e], none)
  | none =>
    match jobInputSchemaParse normalized with
    | some v => return ([], some v)
    | none => return (extractZodErrors [invalidUnionIssue] normalized index input, none)

/-- One candidate of the `forEach`: normalize, then process. -/
def processSchema (schema : Json) (index : Nat) (input : String) :
    Except String (List ErrEntry × Option Json) :=
  processNormalizedSchema (normalizeSchemaForValidation schema) index input

/-- The whole `forEach`: errors and parsed schemas accumulate in candidate
order; a thrown `TypeError` aborts the traversal (and the caller). -/
def processAllAux (cands : List Json) (index : Nat) (input : String) :
    Except String (List ErrEntry × List Json) :=
  match cands with
  | [] => .ok ([], [])
  | c :: cs => do
    let (es, parsed) ← processSchema c index input
    let (es', ps) ← processAllAux cs (index + 1) input
    .ok (es ++ es', parsed.toList ++ ps)

/-- `extractSchemasToValidate`: wrapped format, array format, or single
candidate.  `parsed.input_data` on a `null` top-level value throws in JS. -/
def extractSchemasToValidate (parsed : Json) : Except String (List Json) :=
  match parsed with
  | .null => .error "TypeError: Cannot read properties of null (reading 'input_data')"
  | .obj fs =>
    match lookupField fs "input_data" with
    | some (.arr xs) => .ok xs
    | _ => .ok [parsed]
  | .arr xs => .ok xs
  | other => .ok [other]

/-- `buildValidationResult`. -/
def buildValidationResult (errors : List ErrEntry) (schemas : List Json)
    (schemasToValidate : List Json) : ValidationResult :=
  if errors.length > 0 then
    ⟨false, errors, if schemas.length > 0 then some schemas else none⟩
  else if schemasToValidate.length > 0 ∧ schemas.length < schemasToValidate.length then
    ⟨false,
     [⟨"Some schemas could not be validated. Please check the structure.", none⟩],
     if schemas.length > 0 then some schemas else none⟩
  else
    ⟨true, [], some schemas⟩

/-- `validateSchemaWithZod` from the point where `JSON.parse` succeeded:
`parsed` is the parsed JSON value, `input` the original source text (used
only for line recovery).  A JavaScript `TypeError` thrown inside the
pipeline escapes as `Except.error`. -/
def validateParsedSchema (parsed : Json) (input : String) :
    Except String ValidationResult := do
  let cands ← extractSchemasToValidate parsed
  let (errs, schemas) ← processAllAux cands 0 input
  return buildValidationResult errs schemas cands

/-! ## Derived value-validators (`makeZodSchemaFromJobInputSchema`)

The zod schema each maker builds is embedded as a syntax tree `ZodS`
mirroring the combinators the source applies.  The claims about derived
validators concern acceptance of an absent (`undefined`) value; among the
combinators used, only `.optional()` admits `undefined`
(`z.never().nullable()` admits only `null`). -/

inductive ZodS where
  | string : ZodS
  | number : ZodS
  | boolean : ZodS
  | neverNullable : ZodS
  | min : ZodS → Int → ZodS
  | max : ZodS → Int → ZodS
  | url : ZodS → ZodS
  | email : ZodS → ZodS
  | int : ZodS → ZodS
  | nonneg : ZodS → ZodS
  | array : ZodS → ZodS
  | refineMin : ZodS → String → ZodS
  | refineMax : ZodS → String → ZodS
  | optional : ZodS → ZodS
deriving Repr

/-- Does the derived zod schema accept `undefined` (an absent value)?
True exactly for `.optional()`-wrapped schemas. -/
def acceptsUndefined : ZodS → Bool
  | .optional _ => true
  | _ => false

def acceptsUndefinedOpt : Option ZodS → Bool
  | some s => acceptsUndefined s
  | none => false

/-- `parseValidationValue`: string values go through `parseInt` with the
`NaN ↦ 0` fallback; any non-string (boolean or absent) yields `0`. -/
def parseValidationValue : Option Json → Int
  | some (.str s) => parseIntOr0 s
  | _ => 0

/-- Is this rule's `validation` the string `optional`?  (The source's
`isOptionalValidation` returns `true` regardless of the rule's `value`, so
the `canBeOptional` flag of each maker ends up true exactly when such a
rule occurs.) -/
def isOptionalRule (r : Json) : Bool :=
  match getProp r "validation" with
  | some (.str s) => s = "optional"
  | _ => false

/-- One step of a maker's `reduce`: the `OPTIONAL` case of every maker's
switch sets the flag and returns the accumulator unchanged; every other
case leaves the flag alone and applies the maker's own schema step. -/
def zodStep (step : ZodS → Json → ZodS) (acc : ZodS × Bool) (r : Json) : ZodS × Bool :=
  if isOptionalRule r then (acc.1, true) else (step acc.1 r, acc.2)

/-- The shared skeleton of the makers: `if (!validations) return default`,
then `validations.reduce(...)` tracking `canBeOptional`, then
`canBeOptional ? schema.optional() : schema`.  A present truthy non-array
`validations` would make the JS `reduce` call throw; that value shape is
unreachable for parsed field descriptions and is mapped to the base
schema. -/
def zodReduce (base : ZodS) (step : ZodS → Json → ZodS) (validations : Option Json) : ZodS :=
  match validations with
  | none => base
  | some v =>
    if jsTruthy v then
      match v with
      | .arr vs =>
        let p := vs.foldl (zodStep step) (base, false)
        if p.2 then ZodS.optional p.1 else p.1
      | _ => base
    else base

/-- Schema step of `makeZodSchemaFromJobInputTextSchema`. -/
def textRuleStep (acc : ZodS) (r : Json) : ZodS :=
  match getProp r "validation" with
  | some (.str "min") => .min acc (parseValidationValue (getProp r "value"))
  | some (.str "max") => .max acc (parseValidationValue (getProp r "value"))
  | some (.str "format") =>
    match getProp r "value" with
    | some (.str "url") => .url acc
    | some (.str "email") => .email acc
    | some (.str "nonempty") => .min acc 1
    | _ => acc
  | _ => acc

/-- `makeZodSchemaFromJobInputTextSchema`. -/
def makeZodSchemaFromJobInputTextSchema (f : Json) : ZodS :=
  zodReduce ZodS.string textRuleStep (getProp f "validations")

/-- Schema step of `makeZodSchemaFromJobInputTextareaSchema`. -/
def textareaRuleStep (acc : ZodS) (r : Json) : ZodS :=
  match getProp r "validation" with
  | some (.str "min") => .min acc (parseValidationValue (getProp r "value"))
  | some (.str "max") => .max acc (parseValidationValue (getProp r "value"))
  | some (.str "format") =>
    match getProp r "value" with
    | some (.str "nonempty") => .min acc 1
    | _ => acc
  | _ => acc

/-- `makeZodSchemaFromJobInputTextareaSchema`. -/
def makeZodSchemaFromJobInputTextareaSchema (f : Json) : ZodS :=
  zodReduce ZodS.string textareaRuleStep (getProp f "validations")

/-- Schema step of `makeZodSchemaFromJobInputNumberSchema` (base is
`z.number({ coerce: true })`). -/
def numberRuleStep (acc : ZodS) (r : Json) : ZodS :=
  match getProp r "validation" with
  | some (.str "min") => .min acc (parseValidationValue (getProp r "value"))
  | some (.str "max") => .max acc (parseValidationValue (getProp r "value"))
  | some (.str "format") =>
    match getProp r "value" with
    | some (.str "integer") => .int acc
    | _ => acc
  | _ => acc

/-- `makeZodSchemaFromJobInputNumberSchema`. -/
def makeZodSchemaFromJobInputNumberSchema (f : Json) : ZodS :=
  zodReduce ZodS.number numberRuleStep (getProp f "validations")

/-- `makeZodSchemaFromJobInputBooleanSchema` — ignores `validations`. -/
def makeZodSchemaFromJobInputBooleanSchema : ZodS := ZodS.boolean

/-- `data.values.length` of a choice-type field (`0` only on value shapes
on which the source's destructuring would itself fail). -/
def dataValuesLength (f : Json) : Int :=
  match getProp f "data" with
  | some d =>
    match getProp d "values" with
    | some (.arr xs) => (xs.length : Int)
    | _ => 0
  | none => 0

/-- Schema step shared by the option maker (`min`/`max` on the index
array). -/
def optionRuleStep (acc : ZodS) (r : Json) : ZodS :=
  match getProp r "validation" with
  | some (.str "min") => .min acc (parseValidationValue (getProp r "value"))
  | some (.str "max") => .max acc (parseValidationValue (getProp r "value"))
  | _ => acc

/-- `makeZodSchemaFromJobInputOptionSchema` (base
`z.array(z.number().int().nonnegative().max(values.length - 1))`). -/
def makeZodSchemaFromJobInputOptionSchema (f : Json) : ZodS :=
  zodReduce (ZodS.array (.max (.nonneg (.int .number)) (dataValuesLength f - 1)))
    optionRuleStep (getProp f "validations")

/-- Schema step of `makeZodSchemaFromJobInputFileSchema` (`accept` is
handled at the UI level, falling through to the default case). -/
def fileRuleStep (acc : ZodS) (r : Json) : ZodS :=
  match getProp r "validation" with
  | some (.str "min") => .min acc (parseValidationValue (getProp r "value"))
  | some (.str "max") => .max acc (parseValidationValue (getProp r "value"))
  | _ => acc

/-- `makeZodSchemaFromJobInputFileSchema`. -/
def makeZodSchemaFromJobInputFileSchema (f : Json) : ZodS :=
  zodReduce ZodS.string fileRuleStep (getProp f "validations")

/-- Schema step of `makeZodSchemaFromJobInputEmailSchema` (a `format` rule
is a no-op: the base is already `z.string().email()`). -/
def emailRuleStep (acc : ZodS) (r : Json) : ZodS :=
  match getProp r "validation" with
  | some (.str "min") => .min acc (parseValidationValue (getProp r "value"))
  | some (.str "max") => .max acc (parseValidationValue (getProp r "value"))
  | _ => acc

/-- `makeZodSchemaFromJobInputEmailSchema`. -/
def makeZodSchemaFromJobInputEmailSchema (f : Json) : ZodS :=
  zodReduce (ZodS.email .string) emailRuleStep (getProp f "validations")

/-- `makeZodSchemaFromJobInputPasswordSchema`. -/
def makeZodSchemaFromJobInputPasswordSchema (f : Json) : ZodS :=
  zodReduce ZodS.string emailRuleStep (getProp f "validations")

/-- `makeZodSchemaFromJobInputTelSchema` (the `tel-pattern` format is
handled at the UI level). -/
def makeZodSchemaFromJobInputTelSchema (f : Json) : ZodS :=
  zodReduce ZodS.string emailRuleStep (getProp f "validations")

/-- `makeZodSchemaFromJobInputUrlSchema` (base `z.string().url()`; a
`format` rule is a no-op). -/
def makeZodSchemaFromJobInputUrlSchema (f : Json) : ZodS :=
  zodReduce (ZodS.url .string) emailRuleStep (getProp f "validations")

/-- `min`/`max` bound accumulation of the date-family maker: the last rule
with a non-empty string value wins. -/
def dateBound (kind : String) (acc : Option String) (r : Json) : Option String :=
  match getProp r "validation" with
  | some (.str s) =>
    if s = kind then
      match getProp r "value" with
      | some (.str v) => if v.length > 0 then some v else acc
      | _ => acc
    else acc
  | _ => acc

/-- `makeZodSchemaFromJobInputDateSchema` (shared by `date`,
`datetime-local`, `time`, `month`, `week`): collects string bounds in a
single `forEach`, then attaches lexicographic `refine` checks.  The single
pass updating three locals is modelled as three independent folds, which
agree with it because each local is touched by a disjoint rule kind. -/
def makeZodSchemaFromJobInputDateSchema (f : Json) : ZodS :=
  match getProp f "validations" with
  | none => ZodS.string
  | some v =>
    if jsTruthy v then
      match v with
      | .arr vs =>
        let minBound := vs.foldl (dateBound "min") none
        let maxBound := vs.foldl (dateBound "max") none
        let canBeOptional := vs.any isOptionalRule
        let s1 := match minBound with
          | some b => ZodS.refineMin .string b
          | none => ZodS.string
        let s2 := match maxBound with
          | some b => ZodS.refineMax s1 b
          | none => s1
        if canBeOptional then ZodS.optional s2 else s2
      | _ => ZodS.string
    else ZodS.string

/-- Schema step of `makeZodSchemaFromJobInputColorSchema`: only the
`optional` rule is recognised, so the schema accumulator never changes. -/
def colorRuleStep (acc : ZodS) (_r : Json) : ZodS := acc

/-- `makeZodSchemaFromJobInputColorSchema`. -/
def makeZodSchemaFromJobInputColorSchema (f : Json) : ZodS :=
  zodReduce ZodS.string colorRuleStep (getProp f "validations")

/-- `makeZodSchemaFromJobInputRangeSchema` (base
`z.number({ coerce: true })`). -/
def makeZodSchemaFromJobInputRangeSchema (f : Json) : ZodS :=
  zodReduce ZodS.number emailRuleStep (getProp f "validations")

/-- `makeZodSchemaFromJobInputHiddenSchema` — always `z.string()`. -/
def makeZodSchemaFromJobInputHiddenSchema : ZodS := ZodS.string

/-- `makeZodSchemaFromJobInputSearchSchema`. -/
def makeZodSchemaFromJobInputSearchSchema (f : Json) : ZodS :=
  zodReduce ZodS.string textareaRuleStep (getProp f "validations")

/-- `makeZodSchemaFromJobInputCheckboxSchema` — ignores `validations`. -/
def makeZodSchemaFromJobInputCheckboxSchema : ZodS := ZodS.boolean

/-- `makeZodSchemaFromJobInputRadioSchema` (base
`z.number().int().nonnegative().max(values.length - 1)`; only the
`optional` rule is recognised). -/
def makeZodSchemaFromJobInputRadioSchema (f : Json) : ZodS :=
  zodReduce (ZodS.max (.nonneg (.int .number)) (dataValuesLength f - 1))
    colorRuleStep (getProp f "validations")

/-- `makeZodSchemaFromJobInputSchema`: dispatch on the `type` discriminant.
The switch of the source is exhaustive over the union type; for a value
outside it the function would return `undefined`, modelled as `none`. -/
def makeZodSchemaFromJobInputSchema (f : Json) : Option ZodS :=
  match getStrProp f "type" with
  | some "text" => some (makeZodSchemaFromJobInputTextSchema f)
  | some "textarea" => some (makeZodSchemaFromJobInputTextareaSchema f)
  | some "number" => some (makeZodSchemaFromJobInputNumberSchema f)
  | some "boolean" => some makeZodSchemaFromJobInputBooleanSchema
  | some "option" => some (makeZodSchemaFromJobInputOptionSchema f)
  | some "file" => some (makeZodSchemaFromJobInputFileSchema f)
  | some "none" => some ZodS.neverNullable
  | some "email" => some (makeZodSchemaFromJobInputEmailSchema f)
  | some "password" => some (makeZodSchemaFromJobInputPasswordSchema f)
  | some "tel" => some (makeZodSchemaFromJobInputTelSchema f)
  | some "url" => some (makeZodSchemaFromJobInputUrlSchema f)
  | some "date" => some (makeZodSchemaFromJobInputDateSchema f)
  | some "datetime-local" => some (makeZodSchemaFromJobInputDateSchema f)
  | some "time" => some (makeZodSchemaFromJobInputDateSchema f)
  | some "month" => some (makeZodSchemaFromJobInputDateSchema f)
  | some "week" => some (makeZodSchemaFromJobInputDateSchema f)
  | some "color" => some (makeZodSchemaFromJobInputColorSchema f)
  | some "range" => some (makeZodSchemaFromJobInputRangeSchema f)
  | some "hidden" => some makeZodSchemaFromJobInputHiddenSchema
  | some "search" => some (makeZodSchemaFromJobInputSearchSchema f)
  | some "checkbox" => some makeZodSchemaFromJobInputCheckboxSchema
  | some "radio" => some (makeZodSchemaFromJobInputRadioSchema f)
  | _ => none

/-! ## Helper functions of `job-input-schema.ts` -/

/-- `isOptional`: false when `validations` is absent or falsy; otherwise
`some` over the rules.  (`.some` on a truthy non-array would throw in JS;
that shape is unreachable for parsed field descriptions.) -/
def isOptional (s : Json) : Bool :=
  match getProp s "validations" with
  | none => false
  | some v =>
    if jsTruthy v then
      match v with
      | .arr vs => vs.any isOptionalRule
      | _ => false
    else false

/-- Is this rule's `validation` attribute the given kind? -/
def isRuleKind (kind : String) (r : Json) : Bool :=
  match getProp r "validation" with
  | some (.str s) => s = kind
  | _ => false

/-- `minValidation?.value ? parseValidationValue(...) : undefined` — the
rule's `value` must be present and truthy for the bound to count. -/
def ruleBoundValue (r : Option Json) : Option Int :=
  match r with
  | none => none
  | some rule =>
    match getProp rule "value" with
    | some v => if jsTruthy v then some (parseValidationValue (some v)) else none
    | none => none

/-- `isSingleOption`: option/radio type, `validations` present, and the
*first* `min` rule and the *first* `max` rule both parse to `1`. -/
def isSingleOption (s : Json) : Bool :=
  match getStrProp s "type" with
  | some t =>
    if t ≠ "option" ∧ t ≠ "radio" then false
    else
      match getProp s "validations" with
      | none => false
      | some v =>
        if jsTruthy v then
          match v with
          | .arr vs =>
            let minValue := ruleBoundValue (vs.find? (isRuleKind "min"))
            let maxValue := ruleBoundValue (vs.find? (isRuleKind "max"))
            minValue == some 1 && maxValue == some 1
          | _ => false
        else false
  | none => false

/-! ## Claim-side predicates and concrete instances

These definitions state properties in the spec's vocabulary, for comparison
with the functions embedded from the source. -/

/-- Spec side: the field's `validations` list contains a rule whose
`validation` is `optional` (irrespective of its `value`). -/
def hasOptionalRule (f : Json) : Bool :=
  match getProp f "validations" with
  | some (.arr vs) => vs.any isOptionalRule
  | _ => false

/-- Spec side: the field's `validations` list contains a rule of the given
kind whose `value` is the given string. -/
def hasRuleKindValued (f : Json) (kind val : String) : Bool :=
  match getProp f "validations" with
  | some (.arr vs) =>
    vs.any (fun r => isRuleKind kind r && (getStrProp r "value" == some val))
  | _ => false

/-- Spec side (amended C9): option/radio type, `validations` present, and
the *first* `min` rule and the *first* `max` rule each exist, carry a
truthy `value`, and parse (per `parseInt` with the `0` fallback) to `1`. -/
def singleOptionFirstRuleSpec (f : Json) : Bool :=
  (getStrProp f "type" == some "option" || getStrProp f "type" == some "radio") &&
  (match getProp f "validations" with
   | some (.arr vs) =>
     ruleBoundValue (vs.find? (isRuleKind "min")) == some 1 &&
     ruleBoundValue (vs.find? (isRuleKind "max")) == some 1
   | _ => false)

/-- A candidate's `validations` attribute is absent or an array (the shape
every contract-conformant candidate has after normalization). -/
def validationsAbsentOrArray (j : Json) : Bool :=
  match getProp j "validations" with
  | none => true
  | some (.arr _) => true
  | some _ => false

/-- Does the field list bind the key to an array value? -/
def hasArrayProp (fs : List (String × Json)) (key : String) : Bool :=
  match lookupField fs key with
  | some (.arr _) => true
  | _ => false

/-- An `id` attribute on which the line-recovery heuristic cannot throw:
absent, a string, or falsy. -/
def idSafe : Option Json → Bool
  | none => true
  | some (.str _) => true
  | some v => ! jsTruthy v

/-- A primitive (non-null, non-object, non-array) value: `typeof` is
`string`, `number` or `boolean`. -/
def isPrimitiveJson : Json → Bool
  | .str _ => true
  | .num _ => true
  | .bool _ => true
  | _ => false

/-- A minimal field description: only the required attributes. -/
def minimalInstance (t : String) (dataVal : Option Json) : Json :=
  match dataVal with
  | some d => Json.obj [("id", .str "f1"), ("type", .str t), ("name", .str "Field"), ("data", d)]
  | none => Json.obj [("id", .str "f1"), ("type", .str t), ("name", .str "Field")]

/-- One minimal valid instance per recognised type, in declaration order
(`data` is included exactly where the contract requires it). -/
def minimalInstances : List Json :=
  [minimalInstance "text" none,
   minimalInstance "textarea" none,
   minimalInstance "number" none,
   minimalInstance "boolean" none,
   minimalInstance "option" (some (.obj [("values", .arr [.str "a"])])),
   minimalInstance "file" (some (.obj [("outputFormat", .str "url")])),
   minimalInstance "none" none,
   minimalInstance "email" none,
   minimalInstance "password" none,
   minimalInstance "tel" none,
   minimalInstance "url" none,
   minimalInstance "date" none,
   minimalInstance "datetime-local" none,
   minimalInstance "time" none,
   minimalInstance "month" none,
   minimalInstance "week" none,
   minimalInstance "color" none,
   minimalInstance "range" (some (.obj [])),
   minimalInstance "hidden" (some (.obj [("value", .str "v")])),
   minimalInstance "search" none,
   minimalInstance "checkbox" none,
   minimalInstance "radio" (some (.obj [("values", .arr [.str "a"])]))]

/-- The round-trip check of C2: validation succeeds with no errors, and the
single parsed schema's `type` equals the input instance's `type`. -/
def checkRoundTrip (j : Json) : Bool :=
  match validateParsedSchema j "" with
  | .ok r =>
    r.valid && r.errors.isEmpty &&
    (match r.parsedSchemas with
     | some [f] => getStrProp f "type" == getStrProp j "type"
     | _ => false)
  | .error _ => false

/-- The minimal `text` instance and its parse, used to instantiate several
theorems at a concrete input. -/
def minTextInstance : Json := minimalInstance "text" none

def minTextParsed : Json :=
  Json.obj [("id", .str "f1"), ("type", .str "text"), ("name", .str "Field")]

/-- The message of the single error produced when the top-level union parse
fails (path `[]`, so the displayed field is `unknown` and no line is
recovered). -/
def invalidUnionMessage (index : Nat) : String :=
  let enhanced := enhanceZodErrorMessage invalidUnionIssue "unknown" Json.null
  s!"Schema {index + 1}: {enhanced}"

/-- A field description of type `boolean` carrying an `optional` rule. -/
def boolOptField : Json :=
  Json.obj [("id", .str "a"), ("type", .str "boolean"), ("name", .str "n"),
            ("validations", .arr [.obj [("validation", .str "optional")]])]

def boolOptParsed : Json :=
  Json.obj [("id", .str "a"), ("type", .str "boolean"), ("name", .str "n"),
            ("validations", .arr [.obj [("validation", .str "optional")]])]

/-- A field description of type `text` carrying an `optional` rule. -/
def textOptField : Json :=
  Json.obj [("id", .str "a"), ("type", .str "text"), ("name", .str "n"),
            ("validations", .arr [.obj [("validation", .str "optional")]])]

/-- An option field over three values with the given validation rules. -/
def optionFieldWith (rules : List Json) : Json :=
  Json.obj [("id", .str "a"), ("type", .str "option"), ("name", .str "n"),
            ("data", .obj [("values", .arr [.str "x", .str "y", .str "z"])]),
            ("validations", .arr rules)]

def minRule (v : String) : Json :=
  Json.obj [("validation", .str "min"), ("value", .str v)]

def maxRule (v : String) : Json :=
  Json.obj [("validation", .str "max"), ("value", .str v)]

/-! ## Lemmas -/

theorem getLine_empty (input : String) : getLine "" input = none := by
  simp [getLine]

/-- A candidate contributes either at least one error or a parsed schema,
never both and never neither. -/
theorem processNormalizedSchema_ok (c : Json) (i : Nat) (input : String)
    (es : List ErrEntry) (p : Option Json)
    (h : processNormalizedSchema c i input = .ok (es, p)) :
    es = [] ↔ p.isSome = true := by
  unfold processNormalizedSchema at h
  cases hv : validateValidationsField c i input with
  | error e => simp [hv, Bind.bind, Except.bind] at h
  | ok pre =>
    cases pre with
    | some e =>
      simp [hv, Bind.bind, Except.bind, Pure.pure, Except.pure] at h
      obtain ⟨h1, h2⟩ := h
      subst h1; subst h2
      simp
    | none =>
      cases hz : jobInputSchemaParse c with
      | some v =>
        simp [hv, hz, Bind.bind, Except.bind, Pure.pure, Except.pure] at h
        obtain ⟨h1, h2⟩ := h
        subst h1; subst h2
        simp
      | none =>
        simp [hv, hz, Bind.bind, Except.bind, Pure.pure, Except.pure] at h
        obtain ⟨h1, h2⟩ := h
        subst h1; subst h2
        simp [extractZodErrors]

theorem processSchema_ok (c : Json) (i : Nat) (input : String)
    (es : List ErrEntry) (p : Option Json)
    (h : processSchema c i input = .ok (es, p)) :
    es = [] ↔ p.isSome = true :=
  processNormalizedSchema_ok _ i input es p h

/-- Accumulation invariant of the candidate loop: at most one parsed schema
per candidate, and no errors exactly when every candidate parsed. -/
theorem processAllAux_spec (cs : List Json) : ∀ (i : Nat) (input : String)
    (errs : List ErrEntry) (schemas : List Json),
    processAllAux cs i input = .ok (errs, schemas) →
    schemas.length ≤ cs.length ∧ (errs = [] ↔ schemas.length = cs.length) := by
  induction cs with
  | nil =>
    intro i input errs schemas h
    simp [processAllAux, Pure.pure] at h
    obtain ⟨h1, h2⟩ := h
    subst h1; subst h2
    simp
  | cons c cs ih =>
    intro i input errs schemas h
    unfold processAllAux at h
    cases hp : processSchema c i input with
    | error e => simp [hp, Bind.bind, Except.bind] at h
    | ok pr =>
      obtain ⟨es, p⟩ := pr
      cases hr : processAllAux cs (i + 1) input with
      | error e => simp [hp, hr, Bind.bind, Except.bind] at h
      | ok rr =>
        obtain ⟨es', ps⟩ := rr
        simp [hp, hr, Bind.bind, Except.bind, Pure.pure, Except.pure] at h
        obtain ⟨h1, h2⟩ := h
        subst h1; subst h2
        have hps := ih (i + 1) input es' ps hr
        have hpc := processSchema_ok c i input es p hp
        cases p with
        | none =>
          simp at hpc
          constructor
          · simp
            omega
          · constructor
            · intro hh
              simp at hh
              exact absurd hh.1 hpc
            · intro hh
              simp at hh
              omega
        | some v =>
          simp at hpc
          subst hpc
          simp only [List.nil_append, Option.toList_some, List.singleton_append,
            List.length_cons]
          constructor
          · omega
          · constructor
            · intro hh
              have := (hps.2).1 hh
              omega
            · intro hh
              have hlen : ps.length = cs.length := by omega
              exact (hps.2).2 hlen

/-- `validateSchemaWithZod` (post-parse) in terms of its stages. -/
theorem validateParsedSchema_eq (j : Json) (input : String) (cands : List Json)
    (errs : List ErrEntry) (schemas : List Json)
    (h1 : extractSchemasToValidate j = .ok cands)
    (h2 : processAllAux cands 0 input = .ok (errs, schemas)) :
    validateParsedSchema j input = .ok (buildValidationResult errs schemas cands) := by
  unfold validateParsedSchema
  simp [h1, h2, Bind.bind, Except.bind, Pure.pure, Except.pure]

theorem lookupField_removeField (fs : List (String × Json)) (k k' : String)
    (h : k' ≠ k) :
    lookupField (removeField fs k) k' = lookupField fs k' := by
  induction fs with
  | nil => simp [removeField, lookupField]
  | cons kv rest ih =>
    obtain ⟨key, v⟩ := kv
    by_cases hk : key = k
    · subst hk
      simp [removeField, lookupField, Ne.symm h] at ih ⊢
      simpa [removeField] using ih
    · by_cases hk' : key = k'
      · subst hk'
        simp [removeField, lookupField, hk]
      · simp [removeField, lookupField, hk, hk', Ne.symm hk'] at ih ⊢
        simpa [removeField] using ih

theorem lookupField_removeField_self (fs : List (String × Json)) (k : String) :
    lookupField (removeField fs k) k = none := by
  induction fs with
  | nil => simp [removeField, lookupField]
  | cons kv rest ih =>
    obtain ⟨key, v⟩ := kv
    by_cases hk : key = k
    · simpa [removeField, hk] using ih
    · simp [removeField, lookupField, hk] at ih ⊢
      simpa [removeField] using ih

/-- Normalization deletes a `null` `validations` binding. -/
theorem normalize_null_validations (fs : List (String × Json))
    (h : lookupField fs "validations" = some Json.null) :
    normalizeSchemaForValidation (Json.obj fs) = Json.obj (removeField fs "validations") := by
  simp [normalizeSchemaForValidation, h]

/-- Normalization keeps a candidate whose `validations` is not `null`. -/
theorem normalize_of_not_null (fs : List (String × Json))
    (h : lookupField fs "validations" ≠ some Json.null) :
    normalizeSchemaForValidation (Json.obj fs) = Json.obj fs := by
  unfold normalizeSchemaForValidation
  cases hv : lookupField fs "validations" with
  | none => simp [hv]
  | some v =>
    cases v with
    | null => exact absurd hv h
    | bool b => simp [hv]
    | num n => simp [hv]
    | str s => simp [hv]
    | arr xs => simp [hv]
    | obj kvs => simp [hv]

/-- The pre-validation heuristic passes (without consulting the source
text) any candidate whose `validations` is absent or an array. -/
theorem validateValidationsField_passes (c : Json) (i : Nat) (input : String)
    (h : validationsAbsentOrArray c = true) :
    validateValidationsField c i input = .ok none := by
  unfold validationsAbsentOrArray at h
  unfold validateValidationsField
  cases c with
  | null => rfl
  | bool b => rfl
  | num n => rfl
  | str s => rfl
  | arr xs => simp [getProp] at h ⊢
  | obj fs =>
    cases hv : getProp (Json.obj fs) "validations" with
    | none =>
      simp [getProp] at hv
      simp [getProp, hv]
    | some v =>
      cases v with
      | arr xs =>
        simp [getProp] at hv
        simp [getProp, hv]
      | null => simp [hv] at h
      | bool b => simp [hv] at h
      | num n => simp [hv] at h
      | str s => simp [hv] at h
      | obj kvs => simp [hv] at h

/-- With the heuristic passing, a candidate's processing outcome does not
depend on the original source text: the zod stage is text-independent, and
a failed union parse carries path `[]`, whose line lookup is `none` for
every text. -/
theorem processNormalizedSchema_input_indep (c : Json) (i : Nat) (inp1 inp2 : String)
    (h : validationsAbsentOrArray c = true) :
    processNormalizedSchema c i inp1 = processNormalizedSchema c i inp2 := by
  unfold processNormalizedSchema
  rw [validateValidationsField_passes c i inp1 h,
      validateValidationsField_passes c i inp2 h]
  cases hz : jobInputSchemaParse c with
  | some v => simp [hz]
  | none =>
    simp [hz, extractZodErrors, invalidUnionIssue, getLine_empty]

theorem pUnion_sound (ps : List (Json → Option Json)) (j f : Json)
    (h : pUnion ps j = some f) : ∃ p, p ∈ ps ∧ p j = some f := by
  induction ps with
  | nil => simp [pUnion] at h
  | cons p ps ih =>
    unfold pUnion at h
    cases hp : p j with
    | some v =>
      simp [hp] at h
      exact ⟨p, by simp, by rw [hp, h]⟩
    | none =>
      simp [hp] at h
      obtain ⟨q, hq, hqj⟩ := ih h
      exact ⟨q, by simp [hq], hqj⟩

theorem pEnum1_some (t : String) (v w : Json) (h : pEnum1 t v = some w) :
    w = Json.str t := by
  cases v with
  | str s =>
    simp only [pEnum1] at h
    by_cases hs : s = t
    · rw [if_pos hs] at h
      rw [← hs]
      exact (Option.some_inj.mp h).symm
    · rw [if_neg hs] at h
      exact absurd h (by simp)
  | null => simp [pEnum1] at h
  | bool b => simp [pEnum1] at h
  | num n => simp [pEnum1] at h
  | arr xs => simp [pEnum1] at h
  | obj fs => simp [pEnum1] at h

theorem parseFieldsAux_cons_req (k : String) (p : Json → Option Json)
    (rest : List FieldSpec) (fs out : List (String × Json))
    (h : parseFieldsAux ((k, p, true) :: rest) fs = some out) :
    ∃ v w tl, lookupField fs k = some v ∧ p v = some w ∧
      parseFieldsAux rest fs = some tl ∧ out = (k, w) :: tl := by
  unfold parseFieldsAux at h
  cases hl : lookupField fs k with
  | none => simp [hl] at h
  | some v =>
    cases hp : p v with
    | none => simp [hl, hp] at h
    | some w =>
      cases hr : parseFieldsAux rest fs with
      | none => simp [hl, hp, hr] at h
      | some tl =>
        simp [hl, hp, hr] at h
        exact ⟨v, w, tl, rfl, hp, rfl, h.symm⟩


/-- Every contract lists `id` first and `type` (a one-value enum) second; a
successful parse therefore echoes the branch's `type` literal. -/
theorem parseShape_type_attr (k0 : String) (p0 : Json → Option Json) (t : String)
    (rest : List FieldSpec) (j f : Json) (hk : k0 ≠ "type")
    (h : parseShape ((k0, p0, true) :: ("type", pEnum1 t, true) :: rest) j = some f) :
    getProp f "type" = some (Json.str t) := by
  unfold parseShape at h
  cases j with
  | null => simp at h
  | bool b => simp at h
  | num n => simp at h
  | str s => simp at h
  | arr xs => simp at h
  | obj fs =>
    rw [Option.map_eq_some'] at h
    obtain ⟨out, hout, hf⟩ := h
    obtain ⟨v0, w0, tl, _, _, htl, hout0⟩ := parseFieldsAux_cons_req _ _ _ _ _ hout
    obtain ⟨v1, w1, tl2, _, hp1, _, htl0⟩ := parseFieldsAux_cons_req _ _ _ _ _ htl
    have hw1 := pEnum1_some _ _ _ hp1
    subst hf hout0 htl0 hw1
    simp [getProp, lookupField, hk]

/-- A candidate whose `type` attribute is a string other than the branch's
literal fails that branch. -/
theorem parseShape_type_mismatch (k0 : String) (p0 : Json → Option Json)
    (t u : String) (rest : List FieldSpec) (fs : List (String × Json))
    (ht : lookupField fs "type" = some (Json.str u)) (hne : u ≠ t) :
    parseShape ((k0, p0, true) :: ("type", pEnum1 t, true) :: rest) (Json.obj fs) = none := by
  unfold parseShape
  have hinner : parseFieldsAux (("type", pEnum1 t, true) :: rest) fs = none := by
    unfold parseFieldsAux
    simp [ht, pEnum1, hne]
  have houter : parseFieldsAux ((k0, p0, true) :: ("type", pEnum1 t, true) :: rest) fs = none := by
    unfold parseFieldsAux
    cases hl : lookupField fs k0 with
    | none => simp
    | some v0 =>
      cases hp : p0 v0 with
      | none => simp [hp]
      | some w0 => simp [hp, hinner]
  simp [houter]

/-- Keys of a parsed object all come from the shape. -/
theorem parseFieldsAux_keyNames (shape : List FieldSpec) (fs : List (String × Json)) :
    ∀ (out : List (String × Json)), parseFieldsAux shape fs = some out →
    ∀ (k : String) (w : Json), lookupField out k = some w →
    k ∈ shape.map (fun sp => sp.1) := by
  induction shape with
  | nil =>
    intro out h k w hl
    simp [parseFieldsAux] at h
    subst h
    simp [lookupField] at hl
  | cons sp rest ih =>
    intro out h k w hl
    obtain ⟨name, p, req⟩ := sp
    unfold parseFieldsAux at h
    cases hlf : lookupField fs name with
    | some v =>
      cases hp : p v with
      | none => simp [hlf, hp] at h
      | some wv =>
        cases hr : parseFieldsAux rest fs with
        | none => simp [hlf, hp, hr] at h
        | some tl =>
          simp [hlf, hp, hr] at h
          subst h
          by_cases hk : name = k
          · simp [hk]
          · unfold lookupField at hl
            simp [hk] at hl
            have := ih tl hr k w hl
            simp at this ⊢
            exact Or.inr this
    | none =>
      cases req with
      | true => simp [hlf] at h
      | false =>
        simp [hlf] at h
        have := ih out h k w hl
        simp at this ⊢
        exact Or.inr this

/-- A key not in the shape is absent from the parsed object. -/
theorem parseShape_absent_key (shape : List FieldSpec) (j f : Json) (k : String)
    (h : parseShape shape j = some f) (hk : k ∉ shape.map (fun sp => sp.1)) :
    getProp f k = none := by
  unfold parseShape at h
  cases j with
  | null => simp at h
  | bool b => simp at h
  | num n => simp at h
  | str s => simp at h
  | arr xs => simp at h
  | obj fs =>
    rw [Option.map_eq_some'] at h
    obtain ⟨out, hout, hf⟩ := h
    subst hf
    cases hlo : lookupField out k with
    | none => simp [getProp, hlo]
    | some w => exact absurd (parseFieldsAux_keyNames shape fs out hout k w hlo) hk

/-- The `canBeOptional` flag after the makers' `reduce` is true exactly
when the initial flag was set or some rule is an `optional` rule. -/
theorem foldl_zodStep_flag (step : ZodS → Json → ZodS) (vs : List Json) :
    ∀ (s : ZodS) (b : Bool),
    (vs.foldl (zodStep step) (s, b)).2 = (b || vs.any isOptionalRule) := by
  induction vs with
  | nil => intro s b; simp
  | cons r rs ih =>
    intro s b
    simp only [List.foldl_cons, List.any_cons]
    cases hr : isOptionalRule r with
    | true =>
      have hstep : zodStep step (s, b) r = (s, true) := by simp [zodStep, hr]
      rw [hstep, ih]
      simp [hr]
    | false =>
      have hstep : zodStep step (s, b) r = (step s r, b) := by simp [zodStep, hr]
      rw [hstep, ih]
      simp [hr]

/-- Any maker built on the shared skeleton derives an `.optional` schema
when an `optional` rule occurs in the (array) `validations`. -/
theorem zodReduce_optional (base : ZodS) (step : ZodS → Json → ZodS) (vs : List Json)
    (hopt : vs.any isOptionalRule = true) :
    acceptsUndefined (zodReduce base step (some (.arr vs))) = true := by
  unfold zodReduce
  have hflag := foldl_zodStep_flag step vs base false
  rw [hopt] at hflag
  simp only [Bool.false_or] at hflag
  simp [jsTruthy, hflag, acceptsUndefined]

/-- The date-family maker likewise derives an `.optional` schema when an
`optional` rule occurs. -/
theorem dateSchema_optional (f : Json) (vs : List Json)
    (hv : getProp f "validations" = some (.arr vs))
    (hopt : vs.any isOptionalRule = true) :
    acceptsUndefined (makeZodSchemaFromJobInputDateSchema f) = true := by
  unfold makeZodSchemaFromJobInputDateSchema
  rw [hv]
  simp only [jsTruthy, if_true]
  rw [hopt]
  simp [acceptsUndefined]

/-- `isOptional` agrees with the spec-side "contains an optional rule"
reading on every value (for non-array truthy `validations` — unreachable
for parsed fields — both yield `false`, the source instead throwing). -/
theorem isOptional_eq_hasOptionalRule (f : Json) :
    isOptional f = hasOptionalRule f := by
  unfold isOptional hasOptionalRule
  cases hv : getProp f "validations" with
  | none => rfl
  | some v =>
    cases v with
    | null => simp [jsTruthy]
    | bool b => cases b <;> simp [jsTruthy]
    | num n => by_cases hn : n = 0 <;> simp [jsTruthy, hn]
    | str s => by_cases hs : s = "" <;> simp [jsTruthy, hs]
    | arr xs => simp [jsTruthy]
    | obj kvs => simp [jsTruthy]

theorem hasOptionalRule_elim (f : Json) (h : hasOptionalRule f = true) :
    ∃ vs, getProp f "validations" = some (.arr vs) ∧ vs.any isOptionalRule = true := by
  unfold hasOptionalRule at h
  cases hv : getProp f "validations" with
  | none => rw [hv] at h; simp at h
  | some v =>
    cases v with
    | arr xs =>
      rw [hv] at h
      exact ⟨xs, rfl, h⟩
    | null => rw [hv] at h; simp at h
    | bool b => rw [hv] at h; simp at h
    | num n => rw [hv] at h; simp at h
    | str s => rw [hv] at h; simp at h
    | obj kvs => rw [hv] at h; simp at h

/-- A candidate whose `type` is a string outside the 22 recognised values
fails every branch of the union, so `jobInputSchema.parse` fails. -/
theorem jobInputSchemaParse_bad_type (fs : List (String × Json)) (t : String)
    (ht : lookupField fs "type" = some (Json.str t))
    (hnot : recognizedTypes.contains t = false) :
    jobInputSchemaParse (Json.obj fs) = none := by
  have hmem : t ∉ recognizedTypes := by
    simp at hnot
    exact hnot
  have hne : ∀ u : String, u ∈ recognizedTypes → t ≠ u := by
    intro u hu hcontra
    subst hcontra
    exact hmem hu
  have h01 : jobInputTextSchema (Json.obj fs) = none :=
    parseShape_type_mismatch _ _ _ _ _ _ ht (hne "text" (by simp [recognizedTypes]))
  have h02 : jobInputTextareaSchema (Json.obj fs) = none :=
    parseShape_type_mismatch _ _ _ _ _ _ ht (hne "textarea" (by simp [recognizedTypes]))
  have h03 : jobInputNumberSchema (Json.obj fs) = none :=
    parseShape_type_mismatch _ _ _ _ _ _ ht (hne "number" (by simp [recognizedTypes]))
  have h04 : jobInputBooleanSchema (Json.obj fs) = none :=
    parseShape_type_mismatch _ _ _ _ _ _ ht (hne "boolean" (by simp [recognizedTypes]))
  have h05 : jobInputOptionSchema (Json.obj fs) = none :=
    parseShape_type_mismatch _ _ _ _ _ _ ht (hne "option" (by simp [recognizedTypes]))
  have h06 : jobInputFileSchema (Json.obj fs) = none :=
    parseShape_type_mismatch _ _ _ _ _ _ ht (hne "file" (by simp [recognizedTypes]))
  have h07 : jobInputNoneSchema (Json.obj fs) = none :=
    parseShape_type_mismatch _ _ _ _ _ _ ht (hne "none" (by simp [recognizedTypes]))
  have h08 : jobInputEmailSchema (Json.obj fs) = none :=
    parseShape_type_mismatch _ _ _ _ _ _ ht (hne "email" (by simp [recognizedTypes]))
  have h09 : jobInputPasswordSchema (Json.obj fs) = none :=
    parseShape_type_mismatch _ _ _ _ _ _ ht (hne "password" (by simp [recognizedTypes]))
  have h10 : jobInputTelSchema (Json.obj fs) = none :=
    parseShape_type_mismatch _ _ _ _ _ _ ht (hne "tel" (by simp [recognizedTypes]))
  have h11 : jobInputUrlSchema (Json.obj fs) = none :=
    parseShape_type_mismatch _ _ _ _ _ _ ht (hne "url" (by simp [recognizedTypes]))
  have h12 : jobInputDateSchema (Json.obj fs) = none :=
    parseShape_type_mismatch _ _ _ _ _ _ ht (hne "date" (by simp [recognizedTypes]))
  have h13 : jobInputDatetimeLocalSchema (Json.obj fs) = none :=
    parseShape_type_mismatch _ _ _ _ _ _ ht (hne "datetime-local" (by simp [recognizedTypes]))
  have h14 : jobInputTimeSchema (Json.obj fs) = none :=
    parseShape_type_mismatch _ _ _ _ _ _ ht (hne "time" (by simp [recognizedTypes]))
  have h15 : jobInputMonthSchema (Json.obj fs) = none :=
    parseShape_type_mismatch _ _ _ _ _ _ ht (hne "month" (by simp [recognizedTypes]))
  have h16 : jobInputWeekSchema (Json.obj fs) = none :=
    parseShape_type_mismatch _ _ _ _ _ _ ht (hne "week" (by simp [recognizedTypes]))
  have h17 : jobInputColorSchema (Json.obj fs) = none :=
    parseShape_type_mismatch _ _ _ _ _ _ ht (hne "color" (by simp [recognizedTypes]))
  have h18 : jobInputRangeSchema (Json.obj fs) = none :=
    parseShape_type_mismatch _ _ _ _ _ _ ht (hne "range" (by simp [recognizedTypes]))
  have h19 : jobInputHiddenSchema (Json.obj fs) = none :=
    parseShape_type_mismatch _ _ _ _ _ _ ht (hne "hidden" (by simp [recognizedTypes]))
  have h20 : jobInputSearchSchema (Json.obj fs) = none :=
    parseShape_type_mismatch _ _ _ _ _ _ ht (hne "search" (by simp [recognizedTypes]))
  have h21 : jobInputCheckboxSchema (Json.obj fs) = none :=
    parseShape_type_mismatch _ _ _ _ _ _ ht (hne "checkbox" (by simp [recognizedTypes]))
  have h22 : jobInputRadioSchema (Json.obj fs) = none :=
    parseShape_type_mismatch _ _ _ _ _ _ ht (hne "radio" (by simp [recognizedTypes]))
  unfold jobInputSchemaParse
  simp [pUnion, h01, h02, h03, h04, h05, h06, h07, h08, h09, h10, h11,
    h12, h13, h14, h15, h16, h17, h18, h19, h20, h21, h22]

/-! ## Claim theorems -/

/-- C1: for every input that parses as JSON (and for which the pipeline
returns rather than throwing), the result of `validate` has `valid = true`
iff its `errors` list is empty and every extracted candidate was
successfully parsed (the parsed list `schemas` collects exactly the
successfully parsed candidates, one per success, so "every candidate
parsed" is `schemas.length = cands.length`); and under partial success
(some but not all candidates parsed) the result has `valid = false` with
`parsedSchemas` holding exactly the successfully parsed candidates. -/
theorem c1_valid_iff_all_parsed (j : Json) (input : String) (cands : List Json)
    (errs : List ErrEntry) (schemas : List Json)
    (h1 : extractSchemasToValidate j = .ok cands)
    (h2 : processAllAux cands 0 input = .ok (errs, schemas)) :
    validateParsedSchema j input = .ok (buildValidationResult errs schemas cands) ∧
    ((buildValidationResult errs schemas cands).valid = true ↔
      (buildValidationResult errs schemas cands).errors = [] ∧
      schemas.length = cands.length) ∧
    (schemas ≠ [] → schemas.length < cands.length →
      (buildValidationResult errs schemas cands).valid = false ∧
      (buildValidationResult errs schemas cands).parsedSchemas = some schemas) := by
  have hspec := processAllAux_spec cands 0 input errs schemas h2
  refine ⟨validateParsedSchema_eq j input cands errs schemas h1 h2, ?_, ?_⟩
  · unfold buildValidationResult
    by_cases he : errs = []
    · subst he
      have hlen : schemas.length = cands.length := (hspec.2).1 rfl
      have hnotlt : ¬ (cands.length > 0 ∧ schemas.length < cands.length) := by omega
      simp [hnotlt, hlen]
    · have hpos : errs.length > 0 := by
        cases errs with
        | nil => exact absurd rfl he
        | cons e es => simp
      have hlen : schemas.length ≠ cands.length := fun hl => he ((hspec.2).2 hl)
      simp [hpos, he, hlen]
  · intro hne hlt
    have he : errs ≠ [] := by
      intro hc
      have := (hspec.2).1 hc
      omega
    have hpos : errs.length > 0 := by
      cases errs with
      | nil => exact absurd rfl he
      | cons e es => simp
    have hsl : schemas.length > 0 := by
      cases schemas with
      | nil => exact absurd rfl hne
      | cons s ss => simp
    unfold buildValidationResult
    simp [hpos, hsl]

/-- Witness for C1 at a concrete input: the minimal `text` field
description as a bare object. -/
theorem c1_valid_iff_all_parsed_witness :
    extractSchemasToValidate minTextInstance = .ok [minTextInstance] ∧
    processAllAux [minTextInstance] 0 "" = .ok ([], [minTextParsed]) ∧
    (validateParsedSchema minTextInstance "" =
       .ok (buildValidationResult [] [minTextParsed] [minTextInstance]) ∧
     ((buildValidationResult [] [minTextParsed] [minTextInstance]).valid = true ↔
       (buildValidationResult [] [minTextParsed] [minTextInstance]).errors = [] ∧
       [minTextParsed].length = [minTextInstance].length) ∧
     ([minTextParsed] ≠ [] → [minTextParsed].length < [minTextInstance].length →
       (buildValidationResult [] [minTextParsed] [minTextInstance]).valid = false ∧
       (buildValidationResult [] [minTextParsed] [minTextInstance]).parsedSchemas =
         some [minTextParsed])) :=
  ⟨rfl, rfl, c1_valid_iff_all_parsed minTextInstance "" [minTextInstance] [] [minTextParsed] rfl rfl⟩

/-- C2: each of the 22 recognised field types has a minimal valid instance
(only the required attributes) that round-trips: validation succeeds with
no errors and `parsedSchemas` holds a single element whose `type` equals
the input instance's `type` value (`checkRoundTrip`); the instance list has
one instance per recognised type, in order. -/
theorem c2_minimal_instances_roundtrip :
    minimalInstances.length = 22 ∧
    minimalInstances.map (fun j => getStrProp j "type") = recognizedTypes.map some ∧
    minimalInstances.all checkRoundTrip = true :=
  ⟨rfl, rfl, by decide⟩

/-- C10: whenever the built result has `valid = false`, `parsedSchemas` is
present iff at least one candidate parsed successfully, and when no
candidate parsed it is absent (`none`), not an empty list. -/
theorem c10_parsedSchemas_presence (j : Json) (input : String) (cands : List Json)
    (errs : List ErrEntry) (schemas : List Json)
    (h1 : extractSchemasToValidate j = .ok cands)
    (h2 : processAllAux cands 0 input = .ok (errs, schemas))
    (hinvalid : (buildValidationResult errs schemas cands).valid = false) :
    validateParsedSchema j input = .ok (buildValidationResult errs schemas cands) ∧
    ((buildValidationResult errs schemas cands).parsedSchemas ≠ none ↔ schemas ≠ []) ∧
    (schemas = [] → (buildValidationResult errs schemas cands).parsedSchemas = none) ∧
    (schemas ≠ [] →
      (buildValidationResult errs schemas cands).parsedSchemas = some schemas) := by
  refine ⟨validateParsedSchema_eq j input cands errs schemas h1 h2, ?_⟩
  unfold buildValidationResult at hinvalid ⊢
  by_cases hpos : errs.length > 0
  · simp only [hpos, if_true, gt_iff_lt]
    cases schemas with
    | nil => simp
    | cons s ss => simp
  · by_cases hcond : cands.length > 0 ∧ schemas.length < cands.length
    · simp only [hpos, hcond, if_false, if_true, gt_iff_lt]
      cases schemas with
      | nil => simp
      | cons s ss => simp
    · simp [hpos, hcond] at hinvalid

/-- Witness for C10 at a concrete input: a single candidate with an
unrecognised `type`, where nothing parses and `parsedSchemas` is absent. -/
theorem c10_parsedSchemas_presence_witness :
    extractSchemasToValidate (Json.obj [("id", .str "a"), ("type", .str "bogus"), ("name", .str "n")]) =
      .ok [Json.obj [("id", .str "a"), ("type", .str "bogus"), ("name", .str "n")]] ∧
    processAllAux [Json.obj [("id", .str "a"), ("type", .str "bogus"), ("name", .str "n")]] 0 "" =
      .ok ([⟨"Schema 1: Field \"unknown\" Invalid input. Check that the structure matches the expected format.", none⟩], []) ∧
    (buildValidationResult
      [⟨"Schema 1: Field \"unknown\" Invalid input. Check that the structure matches the expected format.", none⟩]
      [] [Json.obj [("id", .str "a"), ("type", .str "bogus"), ("name", .str "n")]]).valid = false ∧
    (buildValidationResult
      [⟨"Schema 1: Field \"unknown\" Invalid input. Check that the structure matches the expected format.", none⟩]
      [] [Json.obj [("id", .str "a"), ("type", .str "bogus"), ("name", .str "n")]]).parsedSchemas = none :=
  ⟨rfl, rfl, rfl,
   (c10_parsedSchemas_presence
     (Json.obj [("id", .str "a"), ("type", .str "bogus"), ("name", .str "n")]) ""
     [Json.obj [("id", .str "a"), ("type", .str "bogus"), ("name", .str "n")]]
     [⟨"Schema 1: Field \"unknown\" Invalid input. Check that the structure matches the expected format.", none⟩]
     [] rfl rfl rfl).2.2.1 rfl⟩

theorem buildValidationResult_length_congr (errs : List ErrEntry) (schemas : List Json)
    (l1 l2 : List Json) (h : l1.length = l2.length) :
    buildValidationResult errs schemas l1 = buildValidationResult errs schemas l2 := by
  unfold buildValidationResult
  rw [h]

/-- A bare object without an array-valued `input_data` key is its own
single candidate. -/
theorem extract_single_obj (fs : List (String × Json))
    (hwrap : hasArrayProp fs "input_data" = false) :
    extractSchemasToValidate (Json.obj fs) = .ok [Json.obj fs] := by
  unfold hasArrayProp at hwrap
  unfold extractSchemasToValidate
  cases hl : lookupField fs "input_data" with
  | none => simp [hl]
  | some v =>
    cases v with
    | arr xs => rw [hl] at hwrap; simp at hwrap
    | null => simp [hl]
    | bool b => simp [hl]
    | num n => simp [hl]
    | str s => simp [hl]
    | obj kvs => simp [hl]

/-- The whole validator on an input with a single extracted candidate. -/
theorem validateParsedSchema_one (j c : Json) (input : String)
    (hx : extractSchemasToValidate j = .ok [c]) :
    validateParsedSchema j input =
      match processSchema c 0 input with
      | .error e => .error e
      | .ok (es, p) => .ok (buildValidationResult es p.toList [c]) := by
  unfold validateParsedSchema
  rw [hx]
  cases hres : processSchema c 0 input with
  | error e => simp [hres, processAllAux, Bind.bind, Except.bind]
  | ok pr =>
    obtain ⟨es, p⟩ := pr
    simp [hres, processAllAux, Bind.bind, Except.bind, Pure.pure, Except.pure]

/-- C4: for a field description given as the validate input (bare object,
not itself a wrapper), carrying `"validations": null` and carrying no
`validations` attribute at all produce the same `ValidationResult` — even
for unrelated source texts, since no surviving error path consults the
text. -/
theorem c4_null_equals_absent (fs : List (String × Json)) (input1 input2 : String)
    (hv : lookupField fs "validations" = some Json.null)
    (hwrap : hasArrayProp fs "input_data" = false) :
    validateParsedSchema (Json.obj fs) input1 =
    validateParsedSchema (Json.obj (removeField fs "validations")) input2 := by
  have hx1 : extractSchemasToValidate (Json.obj fs) = .ok [Json.obj fs] :=
    extract_single_obj fs hwrap
  have hwrap2 : hasArrayProp (removeField fs "validations") "input_data" = false := by
    unfold hasArrayProp at hwrap ⊢
    rw [lookupField_removeField fs "validations" "input_data" (by decide)]
    exact hwrap
  have hx2 : extractSchemasToValidate (Json.obj (removeField fs "validations")) =
      .ok [Json.obj (removeField fs "validations")] :=
    extract_single_obj _ hwrap2
  have hn1 : normalizeSchemaForValidation (Json.obj fs) =
      Json.obj (removeField fs "validations") :=
    normalize_null_validations fs hv
  have hnv2 : lookupField (removeField fs "validations") "validations" = none :=
    lookupField_removeField_self fs "validations"
  have hn2 : normalizeSchemaForValidation (Json.obj (removeField fs "validations")) =
      Json.obj (removeField fs "validations") :=
    normalize_of_not_null _ (by rw [hnv2]; simp)
  have habs : validationsAbsentOrArray (Json.obj (removeField fs "validations")) = true := by
    unfold validationsAbsentOrArray
    simp [getProp, hnv2]
  have hps : processSchema (Json.obj fs) 0 input1 =
      processSchema (Json.obj (removeField fs "validations")) 0 input2 := by
    unfold processSchema
    rw [hn1, hn2]
    exact processNormalizedSchema_input_indep _ 0 input1 input2 habs
  rw [validateParsedSchema_one _ _ input1 hx1, validateParsedSchema_one _ _ input2 hx2, hps]
  cases hres : processSchema (Json.obj (removeField fs "validations")) 0 input2 with
  | error e => rfl
  | ok pr =>
    obtain ⟨es, p⟩ := pr
    exact congrArg Except.ok (buildValidationResult_length_congr es p.toList _ _ (by simp))

/-- Witness for C4 at a concrete input: a minimal text field with
`"validations": null`, against two different source texts. -/
theorem c4_null_equals_absent_witness :
    lookupField [("id", Json.str "a"), ("type", Json.str "text"), ("name", Json.str "n"), ("validations", Json.null)] "validations" = some Json.null ∧
    hasArrayProp [("id", Json.str "a"), ("type", Json.str "text"), ("name", Json.str "n"), ("validations", Json.null)] "input_data" = false ∧
    validateParsedSchema (Json.obj [("id", Json.str "a"), ("type", Json.str "text"), ("name", Json.str "n"), ("validations", Json.null)]) "x" =
      validateParsedSchema (Json.obj (removeField [("id", Json.str "a"), ("type", Json.str "text"), ("name", Json.str "n"), ("validations", Json.null)] "validations")) "y" :=
  ⟨rfl, rfl,
   c4_null_equals_absent
     [("id", Json.str "a"), ("type", Json.str "text"), ("name", Json.str "n"), ("validations", Json.null)]
     "x" "y" rfl rfl⟩

/-- C5 (amended): for a valid single field description that does not itself
carry an array-valued `input_data` attribute, the three top-level shapes —
bare object, one-element array, and `input_data` wrapper — all produce the
same successful result, with identical `parsedSchemas` `[f]`. -/
theorem c5_three_shapes_amended (fs : List (String × Json)) (f : Json) (i1 i2 i3 : String)
    (hwrap : hasArrayProp fs "input_data" = false)
    (hva : validationsAbsentOrArray (normalizeSchemaForValidation (Json.obj fs)) = true)
    (hparse : jobInputSchemaParse (normalizeSchemaForValidation (Json.obj fs)) = some f) :
    validateParsedSchema (Json.obj fs) i1 = .ok ⟨true, [], some [f]⟩ ∧
    validateParsedSchema (Json.arr [Json.obj fs]) i2 = .ok ⟨true, [], some [f]⟩ ∧
    validateParsedSchema (Json.obj [("input_data", Json.arr [Json.obj fs])]) i3 =
      .ok ⟨true, [], some [f]⟩ := by
  have hproc : ∀ inp, processSchema (Json.obj fs) 0 inp = .ok ([], some f) := by
    intro inp
    unfold processSchema processNormalizedSchema
    rw [validateValidationsField_passes _ 0 inp hva]
    simp [hparse, Bind.bind, Except.bind, Pure.pure, Except.pure]
  have hbuild : buildValidationResult [] [f] [Json.obj fs] = ⟨true, [], some [f]⟩ := by
    simp [buildValidationResult]
  have hx2 : extractSchemasToValidate (Json.arr [Json.obj fs]) = .ok [Json.obj fs] := by
    simp [extractSchemasToValidate]
  have hx3 : extractSchemasToValidate (Json.obj [("input_data", Json.arr [Json.obj fs])]) =
      .ok [Json.obj fs] := by
    simp [extractSchemasToValidate, lookupField]
  refine ⟨?_, ?_, ?_⟩
  · rw [validateParsedSchema_one _ _ i1 (extract_single_obj fs hwrap), hproc i1]
    simp [hbuild]
  · rw [validateParsedSchema_one _ _ i2 hx2, hproc i2]
    simp [hbuild]
  · rw [validateParsedSchema_one _ _ i3 hx3, hproc i3]
    simp [hbuild]

/-- Witness for C5 (amended) at a concrete input: the minimal text field in
all three shapes, with three different source texts. -/
theorem c5_three_shapes_amended_witness :
    hasArrayProp [("id", Json.str "f1"), ("type", Json.str "text"), ("name", Json.str "Field")] "input_data" = false ∧
    validationsAbsentOrArray (normalizeSchemaForValidation minTextInstance) = true ∧
    jobInputSchemaParse (normalizeSchemaForValidation minTextInstance) = some minTextParsed ∧
    (validateParsedSchema minTextInstance "a" = .ok ⟨true, [], some [minTextParsed]⟩ ∧
     validateParsedSchema (Json.arr [minTextInstance]) "b" = .ok ⟨true, [], some [minTextParsed]⟩ ∧
     validateParsedSchema (Json.obj [("input_data", Json.arr [minTextInstance])]) "c" =
       .ok ⟨true, [], some [minTextParsed]⟩) :=
  ⟨rfl, rfl, rfl,
   c5_three_shapes_amended
     [("id", Json.str "f1"), ("type", Json.str "text"), ("name", Json.str "Field")]
     minTextParsed "a" "b" "c" rfl rfl rfl⟩

/-- C5 counterexample: the claim as stated is false.  The field description
`{"id":"a","type":"text","name":"n","input_data":[]}` is valid (it parses:
unknown keys are stripped), yet as a bare object its `input_data` key
triggers the wrapper format, yielding `parsedSchemas = some []`, while as a
one-element array it yields the parsed field — not identical. -/
theorem c5_three_shapes_counterexample :
    (jobInputSchemaParse (Json.obj [("id", .str "a"), ("type", .str "text"), ("name", .str "n"), ("input_data", Json.arr [])])).isSome = true ∧
    validateParsedSchema (Json.obj [("id", .str "a"), ("type", .str "text"), ("name", .str "n"), ("input_data", Json.arr [])]) "" =
      .ok ⟨true, [], some []⟩ ∧
    validateParsedSchema (Json.arr [Json.obj [("id", .str "a"), ("type", .str "text"), ("name", .str "n"), ("input_data", Json.arr [])]]) "" =
      .ok ⟨true, [], some [Json.obj [("id", Json.str "a"), ("type", Json.str "text"), ("name", Json.str "n")]]⟩ ∧
    ([] : List Json) ≠ [Json.obj [("id", Json.str "a"), ("type", Json.str "text"), ("name", Json.str "n")]] :=
  ⟨rfl, rfl, rfl, by simp⟩

theorem normalize_preserves_type (fs : List (String × Json)) :
    ∃ fs2, normalizeSchemaForValidation (Json.obj fs) = Json.obj fs2 ∧
      lookupField fs2 "type" = lookupField fs "type" := by
  unfold normalizeSchemaForValidation
  cases hv : lookupField fs "validations" with
  | none => exact ⟨fs, by simp [hv], rfl⟩
  | some v =>
    cases v with
    | null =>
      exact ⟨removeField fs "validations", by simp [hv],
        lookupField_removeField fs "validations" "type" (by decide)⟩
    | bool b => exact ⟨fs, by simp [hv], rfl⟩
    | num n => exact ⟨fs, by simp [hv], rfl⟩
    | str s => exact ⟨fs, by simp [hv], rfl⟩
    | arr xs => exact ⟨fs, by simp [hv], rfl⟩
    | obj kvs => exact ⟨fs, by simp [hv], rfl⟩

/-- C3 counterexample: the claim as stated is false.  For the candidate
`{"id":"a","type":"bogus","name":"n"}` the validator does return
`valid = false`, but its single structural error is the generic
invalid-union message — it does not list the legal enumerated `type`
alternatives (it contains neither an enum-listing phrase such as
`Must be one of` nor any recognised type name such as `textarea`). -/
theorem c3_unknown_type_counterexample :
    validateParsedSchema (Json.obj [("id", .str "a"), ("type", .str "bogus"), ("name", .str "n")]) "" =
      .ok ⟨false,
        [⟨"Schema 1: Field \"unknown\" Invalid input. Check that the structure matches the expected format.", none⟩],
        none⟩ ∧
    strHasSub "Schema 1: Field \"unknown\" Invalid input. Check that the structure matches the expected format."
      "Must be one of" = false ∧
    strHasSub "Schema 1: Field \"unknown\" Invalid input. Check that the structure matches the expected format."
      "textarea" = false :=
  ⟨rfl, by decide, by decide⟩

/-- C3 (amended): a candidate whose `type` is a string outside the 22
recognised values, and which the pre-validation heuristic does not
short-circuit, fails the whole union and contributes exactly one structural
error — the generic invalid-union message (`Field "unknown" Invalid input.
Check that the structure matches the expected format.`), which names no
enumerated alternatives. -/
theorem c3_unknown_type_amended (fs : List (String × Json)) (t : String)
    (index : Nat) (input : String)
    (ht : lookupField fs "type" = some (Json.str t))
    (hnot : recognizedTypes.contains t = false)
    (hpre : validateValidationsField (normalizeSchemaForValidation (Json.obj fs)) index input = .ok none) :
    processSchema (Json.obj fs) index input =
      .ok ([⟨invalidUnionMessage index, none⟩], none) ∧
    invalidUnionMessage 0 =
      "Schema 1: Field \"unknown\" Invalid input. Check that the structure matches the expected format." := by
  refine ⟨?_, rfl⟩
  obtain ⟨fs2, hn, hty⟩ := normalize_preserves_type fs
  have hzod : jobInputSchemaParse (Json.obj fs2) = none :=
    jobInputSchemaParse_bad_type fs2 t (by rw [hty]; exact ht) hnot
  unfold processSchema
  rw [hn] at hpre ⊢
  unfold processNormalizedSchema
  rw [hpre]
  simp only [Bind.bind, Except.bind]
  rw [hzod]
  rfl

/-- Witness for C3 (amended) at a concrete input. -/
theorem c3_unknown_type_amended_witness :
    lookupField [("id", Json.str "a"), ("type", Json.str "bogus"), ("name", Json.str "n")] "type" = some (Json.str "bogus") ∧
    recognizedTypes.contains "bogus" = false ∧
    validateValidationsField (normalizeSchemaForValidation (Json.obj [("id", Json.str "a"), ("type", Json.str "bogus"), ("name", Json.str "n")])) 0 "" = .ok none ∧
    (processSchema (Json.obj [("id", Json.str "a"), ("type", Json.str "bogus"), ("name", Json.str "n")]) 0 "" =
       .ok ([⟨invalidUnionMessage 0, none⟩], none) ∧
     invalidUnionMessage 0 =
       "Schema 1: Field \"unknown\" Invalid input. Check that the structure matches the expected format.") :=
  ⟨rfl, by decide, rfl,
   c3_unknown_type_amended [("id", Json.str "a"), ("type", Json.str "bogus"), ("name", Json.str "n")]
     "bogus" 0 "" rfl (by decide) rfl⟩

/-- With a safe `id` (absent, falsy, or a string), the line-recovery
heuristic cannot throw. -/
theorem getValidationsLine_safe (schema : Json) (input : String)
    (hid : idSafe (getProp schema "id") = true) :
    ∃ l, getValidationsLine schema input = .ok l := by
  unfold getValidationsLine
  cases hidv : getProp schema "id" with
  | none => exact ⟨getLine "validations" input, rfl⟩
  | some v =>
    cases v with
    | str s =>
      cases hs : jsTruthy (Json.str s) with
      | false => exact ⟨getLine "validations" input, by simp [hs]⟩
      | true =>
        cases hf : findIdxWhere (matchesIdPatternAt s.data) input.data with
        | none => exact ⟨getLine "validations" input, by simp [hs, hf]⟩
        | some idx =>
          cases hf2 : findIdxWhere matchesValidationsKeyAt (input.data.drop idx) with
          | none => exact ⟨getLine "validations" input, by simp [hs, hf, hf2]⟩
          | some vIdx =>
            exact ⟨some (countNewlines (input.data.take (idx + vIdx)) + 1),
              by simp [hs, hf, hf2]⟩
    | null => exact ⟨getLine "validations" input, by simp [jsTruthy]⟩
    | bool b =>
      rw [hidv] at hid
      simp [idSafe, jsTruthy] at hid
      exact ⟨getLine "validations" input, by simp [jsTruthy, hid]⟩
    | num n =>
      rw [hidv] at hid
      simp [idSafe, jsTruthy] at hid
      exact ⟨getLine "validations" input, by simp [jsTruthy, hid]⟩
    | arr xs =>
      rw [hidv] at hid
      simp [idSafe, jsTruthy] at hid
    | obj kvs =>
      rw [hidv] at hid
      simp [idSafe, jsTruthy] at hid

/-- C6 (amended): for a candidate whose `validations` is the single-key
object `{"min": "3"}` and whose `id` attribute is absent, falsy, or a
string, processing that candidate yields exactly one error — the heuristic
message, whose text ends with the corrected form
`[{"validation": "min", "value": "3"}]` — and the candidate is never
handed to the structural (zod) validator (its parsed component is `none`,
the heuristic having short-circuited). -/
theorem c6_validations_object_amended (fs : List (String × Json)) (index : Nat) (input : String)
    (hv : lookupField fs "validations" = some (Json.obj [("min", Json.str "3")]))
    (hid : idSafe (lookupField fs "id") = true) :
    ∃ line, processSchema (Json.obj fs) index input =
      .ok ([⟨validationsObjectMsgPrefix index (Json.obj fs) [("min", Json.str "3")] ++
              formatCorrectValidationsArray "min" (Json.str "3"), line⟩], none) ∧
    formatCorrectValidationsArray "min" (Json.str "3") =
      "[\x7b\"validation\": \"min\", \"value\": \"3\"\x7d]" := by
  obtain ⟨l, hline⟩ := getValidationsLine_safe (Json.obj fs) input hid
  refine ⟨l, ?_, rfl⟩
  have hnorm : normalizeSchemaForValidation (Json.obj fs) = Json.obj fs :=
    normalize_of_not_null fs (by rw [hv]; simp)
  have hvvf : validateValidationsField (Json.obj fs) index input =
      .ok (some ⟨validationsObjectMsgPrefix index (Json.obj fs) [("min", Json.str "3")] ++
                 formatCorrectValidationsArray "min" (Json.str "3"), l⟩) := by
    unfold validateValidationsField
    simp only [getProp]
    rw [hv]
    unfold handleValidationsObjectError
    rw [hline]
    simp [validKeys, Bind.bind, Except.bind, Pure.pure, Except.pure]
  unfold processSchema
  rw [hnorm]
  unfold processNormalizedSchema
  rw [hvvf]
  rfl

/-- Witness for C6 (amended) at a concrete input. -/
theorem c6_validations_object_amended_witness :
    lookupField [("id", Json.str "a"), ("type", Json.str "text"), ("name", Json.str "n"), ("validations", Json.obj [("min", Json.str "3")])] "validations" = some (Json.obj [("min", Json.str "3")]) ∧
    idSafe (lookupField [("id", Json.str "a"), ("type", Json.str "text"), ("name", Json.str "n"), ("validations", Json.obj [("min", Json.str "3")])] "id") = true ∧
    (∃ line, processSchema (Json.obj [("id", Json.str "a"), ("type", Json.str "text"), ("name", Json.str "n"), ("validations", Json.obj [("min", Json.str "3")])]) 0 "" =
      .ok ([⟨validationsObjectMsgPrefix 0 (Json.obj [("id", Json.str "a"), ("type", Json.str "text"), ("name", Json.str "n"), ("validations", Json.obj [("min", Json.str "3")])]) [("min", Json.str "3")] ++
              formatCorrectValidationsArray "min" (Json.str "3"), line⟩], none)) ∧
    formatCorrectValidationsArray "min" (Json.str "3") =
      "[\x7b\"validation\": \"min\", \"value\": \"3\"\x7d]" := by
  obtain ⟨line, h1, h2⟩ := c6_validations_object_amended
    [("id", Json.str "a"), ("type", Json.str "text"), ("name", Json.str "n"), ("validations", Json.obj [("min", Json.str "3")])]
    0 "" rfl rfl
  exact ⟨rfl, rfl, ⟨line, h1⟩, h2⟩

/-- C6 counterexample: the claim as stated is false.  A candidate with the
same `{"min": "3"}` mistake but a numeric `id` makes the validator throw a
`TypeError` (the source calls `schemaId.replace` on the number while
recovering the line), so no `ValidationResult` — and in particular no
single corrective error — is produced. -/
theorem c6_validations_object_counterexample :
    validateParsedSchema (Json.obj [("id", Json.num 5), ("type", Json.str "text"), ("name", Json.str "n"), ("validations", Json.obj [("min", Json.str "3")])]) "" =
      .error "TypeError: schemaId.replace is not a function" := rfl

/-- C7 (amended): the pre-validation heuristic also fires for a present
`validations` that is a primitive (string, number, boolean): such a
candidate is short-circuited with the "must be an array or omitted" error
(never reaching the structural validator), provided its `id` is absent,
falsy, or a string.  Only a present non-array *object* none of whose keys
belongs to the rule-kind vocabulary is deferred to the general structural
validator. -/
theorem c7_heuristic_scope_amended :
    (∀ (fs : List (String × Json)) (index : Nat) (input : String) (v : Json),
      lookupField fs "validations" = some v → isPrimitiveJson v = true →
      idSafe (lookupField fs "id") = true →
      ∃ line, processSchema (Json.obj fs) index input =
        .ok ([⟨validationsPrimitiveMsg index (Json.obj fs) v, line⟩], none)) ∧
    (∀ (s : Json) (index : Nat) (input : String) (kvs : List (String × Json)),
      getProp s "validations" = some (Json.obj kvs) →
      (kvs.map Prod.fst).any (fun k => validKeys.contains k) = false →
      validateValidationsField s index input = .ok none) := by
  constructor
  · intro fs index input v hv hprim hid
    obtain ⟨l, hline⟩ := getValidationsLine_safe (Json.obj fs) input hid
    refine ⟨l, ?_⟩
    have hnn : lookupField fs "validations" ≠ some Json.null := by
      rw [hv]
      intro hc
      injection hc with hc2
      subst hc2
      simp [isPrimitiveJson] at hprim
    have hnorm := normalize_of_not_null fs hnn
    have hvvf : validateValidationsField (Json.obj fs) index input =
        .ok (some ⟨validationsPrimitiveMsg index (Json.obj fs) v, l⟩) := by
      unfold validateValidationsField
      simp only [getProp]
      rw [hv]
      cases v with
      | str s =>
        rw [hline]
        rfl
      | num n =>
        rw [hline]
        rfl
      | bool b =>
        rw [hline]
        rfl
      | null => simp [isPrimitiveJson] at hprim
      | arr xs => simp [isPrimitiveJson] at hprim
      | obj kvs => simp [isPrimitiveJson] at hprim
    unfold processSchema
    rw [hnorm]
    unfold processNormalizedSchema
    rw [hvvf]
    rfl
  · intro s index input kvs hv hno
    cases s with
    | obj fs =>
      simp only [getProp] at hv
      unfold validateValidationsField
      simp only [getProp]
      rw [hv]
      unfold handleValidationsObjectError
      simp only [hno]
      simp
    | null => rfl
    | bool b => rfl
    | num n => rfl
    | str str => rfl
    | arr xs => simp [getProp] at hv

/-- Witness for C7 (amended) at concrete inputs: a string-valued
`validations` (short-circuited) and an object-valued `validations` with no
recognised key (deferred). -/
theorem c7_heuristic_scope_amended_witness :
    lookupField [("id", Json.str "a"), ("type", Json.str "text"), ("name", Json.str "n"), ("validations", Json.str "oops")] "validations" = some (Json.str "oops") ∧
    isPrimitiveJson (Json.str "oops") = true ∧
    idSafe (lookupField [("id", Json.str "a"), ("type", Json.str "text"), ("name", Json.str "n"), ("validations", Json.str "oops")] "id") = true ∧
    (∃ line, processSchema (Json.obj [("id", Json.str "a"), ("type", Json.str "text"), ("name", Json.str "n"), ("validations", Json.str "oops")]) 0 "" =
      .ok ([⟨validationsPrimitiveMsg 0 (Json.obj [("id", Json.str "a"), ("type", Json.str "text"), ("name", Json.str "n"), ("validations", Json.str "oops")]) (Json.str "oops"), line⟩], none)) ∧
    getProp (Json.obj [("id", Json.str "a"), ("validations", Json.obj [("foo", Json.str "1")])]) "validations" = some (Json.obj [("foo", Json.str "1")]) ∧
    ([("foo", Json.str "1")].map Prod.fst).any (fun k => validKeys.contains k) = false ∧
    validateValidationsField (Json.obj [("id", Json.str "a"), ("validations", Json.obj [("foo", Json.str "1")])]) 0 "" = .ok none :=
  ⟨rfl, rfl, rfl,
   c7_heuristic_scope_amended.1
     [("id", Json.str "a"), ("type", Json.str "text"), ("name", Json.str "n"), ("validations", Json.str "oops")]
     0 "" (Json.str "oops") rfl rfl rfl,
   rfl, by decide,
   c7_heuristic_scope_amended.2
     (Json.obj [("id", Json.str "a"), ("validations", Json.obj [("foo", Json.str "1")])])
     0 "" [("foo", Json.str "1")] rfl (by decide)⟩

/-- C7 counterexample: the claim as stated is false.  A candidate whose
`validations` is the string `"oops"` is *not* deferred to the general
structural validator: it is short-circuited with the heuristic
"must be an array or omitted" error (which differs from the general
validator's invalid-union message), and its parsed component is `none`
without zod ever running. -/
theorem c7_heuristic_scope_counterexample :
    processSchema (Json.obj [("id", Json.str "a"), ("type", Json.str "text"), ("name", Json.str "n"), ("validations", Json.str "oops")]) 0 "" =
      .ok ([⟨"Schema 1 (field: \"a\"): Field \"validations\" must be an array or omitted. Found: string. Example: [\x7b\"validation\": \"optional\"\x7d] or omit the field entirely.", none⟩], none) ∧
    ("Schema 1 (field: \"a\"): Field \"validations\" must be an array or omitted. Found: string. Example: [\x7b\"validation\": \"optional\"\x7d] or omit the field entirely." : String) ≠
      invalidUnionMessage 0 :=
  ⟨rfl, by decide⟩

/-- C8 (amended): for every parsed field description, `isOptional` is true
iff the `validations` list contains an `optional` rule (value ignored) —
this half holds as claimed; and the derived value-validator accepts an
absent (`undefined`) value whenever an `optional` rule is present *and*
the field's type is not `boolean` or `checkbox` (whose derivations ignore
`validations` entirely). -/
theorem c8_optional_amended :
    (∀ (j f : Json), jobInputSchemaParse j = some f →
      (isOptional f = true ↔ hasOptionalRule f = true)) ∧
    (∀ (j f : Json), jobInputSchemaParse j = some f →
      hasOptionalRule f = true →
      getStrProp f "type" ≠ some "boolean" →
      getStrProp f "type" ≠ some "checkbox" →
      acceptsUndefinedOpt (makeZodSchemaFromJobInputSchema f) = true) := by
  constructor
  · intro j f _
    rw [isOptional_eq_hasOptionalRule]
  · intro j f hp hopt hb hc
    obtain ⟨vs, hv, hany⟩ := hasOptionalRule_elim f hopt
    obtain ⟨p, hmem, hpj⟩ := pUnion_sound _ j f hp
    simp only [List.mem_cons, List.not_mem_nil, or_false] at hmem
    rcases hmem with rfl|rfl|rfl|rfl|rfl|rfl|rfl|rfl|rfl|rfl|rfl|rfl|rfl|rfl|rfl|rfl|rfl|rfl|rfl|rfl|rfl|rfl
    · have htype := parseShape_type_attr "id" pStrMin1 "text" _ j f (by decide) hpj
      have hstr : getStrProp f "type" = some "text" := by simp [getStrProp, htype]
      have hdis : makeZodSchemaFromJobInputSchema f =
          some (makeZodSchemaFromJobInputTextSchema f) := by
        unfold makeZodSchemaFromJobInputSchema
        rw [hstr]
        rfl
      rw [hdis]
      simp only [acceptsUndefinedOpt]
      unfold makeZodSchemaFromJobInputTextSchema
      rw [hv]
      exact zodReduce_optional _ _ _ hany
    · have htype := parseShape_type_attr "id" pStrMin1 "textarea" _ j f (by decide) hpj
      have hstr : getStrProp f "type" = some "textarea" := by simp [getStrProp, htype]
      have hdis : makeZodSchemaFromJobInputSchema f =
          some (makeZodSchemaFromJobInputTextareaSchema f) := by
        unfold makeZodSchemaFromJobInputSchema
        rw [hstr]
        rfl
      rw [hdis]
      simp only [acceptsUndefinedOpt]
      unfold makeZodSchemaFromJobInputTextareaSchema
      rw [hv]
      exact zodReduce_optional _ _ _ hany
    · have htype := parseShape_type_attr "id" pStrMin1 "number" _ j f (by decide) hpj
      have hstr : getStrProp f "type" = some "number" := by simp [getStrProp, htype]
      have hdis : makeZodSchemaFromJobInputSchema f =
          some (makeZodSchemaFromJobInputNumberSchema f) := by
        unfold makeZodSchemaFromJobInputSchema
        rw [hstr]
        rfl
      rw [hdis]
      simp only [acceptsUndefinedOpt]
      unfold makeZodSchemaFromJobInputNumberSchema
      rw [hv]
      exact zodReduce_optional _ _ _ hany
    · have htype := parseShape_type_attr "id" pStrMin1 "boolean" _ j f (by decide) hpj
      have hstr : getStrProp f "type" = some "boolean" := by simp [getStrProp, htype]
      exact absurd hstr hb
    · have htype := parseShape_type_attr "id" pStrMin1 "option" _ j f (by decide) hpj
      have hstr : getStrProp f "type" = some "option" := by simp [getStrProp, htype]
      have hdis : makeZodSchemaFromJobInputSchema f =
          some (makeZodSchemaFromJobInputOptionSchema f) := by
        unfold makeZodSchemaFromJobInputSchema
        rw [hstr]
        rfl
      rw [hdis]
      simp only [acceptsUndefinedOpt]
      unfold makeZodSchemaFromJobInputOptionSchema
      rw [hv]
      exact zodReduce_optional _ _ _ hany
    · have htype := parseShape_type_attr "id" pStrMin1 "file" _ j f (by decide) hpj
      have hstr : getStrProp f "type" = some "file" := by simp [getStrProp, htype]
      have hdis : makeZodSchemaFromJobInputSchema f =
          some (makeZodSchemaFromJobInputFileSchema f) := by
        unfold makeZodSchemaFromJobInputSchema
        rw [hstr]
        rfl
      rw [hdis]
      simp only [acceptsUndefinedOpt]
      unfold makeZodSchemaFromJobInputFileSchema
      rw [hv]
      exact zodReduce_optional _ _ _ hany
    · have habs : getProp f "validations" = none :=
        parseShape_absent_key _ j f "validations" hpj (by decide)
      rw [habs] at hv
      exact Option.noConfusion hv
    · have htype := parseShape_type_attr "id" pStrMin1 "email" _ j f (by decide) hpj
      have hstr : getStrProp f "type" = some "email" := by simp [getStrProp, htype]
      have hdis : makeZodSchemaFromJobInputSchema f =
          some (makeZodSchemaFromJobInputEmailSchema f) := by
        unfold makeZodSchemaFromJobInputSchema
        rw [hstr]
        rfl
      rw [hdis]
      simp only [acceptsUndefinedOpt]
      unfold makeZodSchemaFromJobInputEmailSchema
      rw [hv]
      exact zodReduce_optional _ _ _ hany
    · have htype := parseShape_type_attr "id" pStrMin1 "password" _ j f (by decide) hpj
      have hstr : getStrProp f "type" = some "password" := by simp [getStrProp, htype]
      have hdis : makeZodSchemaFromJobInputSchema f =
          some (makeZodSchemaFromJobInputPasswordSchema f) := by
        unfold makeZodSchemaFromJobInputSchema
        rw [hstr]
        rfl
      rw [hdis]
      simp only [acceptsUndefinedOpt]
      unfold makeZodSchemaFromJobInputPasswordSchema
      rw [hv]
      exact zodReduce_optional _ _ _ hany
    · have htype := parseShape_type_attr "id" pStrMin1 "tel" _ j f (by decide) hpj
      have hstr : getStrProp f "type" = some "tel" := by simp [getStrProp, htype]
      have hdis : makeZodSchemaFromJobInputSchema f =
          some (makeZodSchemaFromJobInputTelSchema f) := by
        unfold makeZodSchemaFromJobInputSchema
        rw [hstr]
        rfl
      rw [hdis]
      simp only [acceptsUndefinedOpt]
      unfold makeZodSchemaFromJobInputTelSchema
      rw [hv]
      exact zodReduce_optional _ _ _ hany
    · have htype := parseShape_type_attr "id" pStrMin1 "url" _ j f (by decide) hpj
      have hstr : getStrProp f "type" = some "url" := by simp [getStrProp, htype]
      have hdis : makeZodSchemaFromJobInputSchema f =
          some (makeZodSchemaFromJobInputUrlSchema f) := by
        unfold makeZodSchemaFromJobInputSchema
        rw [hstr]
        rfl
      rw [hdis]
      simp only [acceptsUndefinedOpt]
      unfold makeZodSchemaFromJobInputUrlSchema
      rw [hv]
      exact zodReduce_optional _ _ _ hany
    · have htype := parseShape_type_attr "id" pStrMin1 "date" _ j f (by decide) hpj
      have hstr : getStrProp f "type" = some "date" := by simp [getStrProp, htype]
      have hdis : makeZodSchemaFromJobInputSchema f =
          some (makeZodSchemaFromJobInputDateSchema f) := by
        unfold makeZodSchemaFromJobInputSchema
        rw [hstr]
        rfl
      rw [hdis]
      simp only [acceptsUndefinedOpt]
      exact dateSchema_optional f vs hv hany
    · have htype := parseShape_type_attr "id" pStrMin1 "datetime-local" _ j f (by decide) hpj
      have hstr : getStrProp f "type" = some "datetime-local" := by simp [getStrProp, htype]
      have hdis : makeZodSchemaFromJobInputSchema f =
          some (makeZodSchemaFromJobInputDateSchema f) := by
        unfold makeZodSchemaFromJobInputSchema
        rw [hstr]
        rfl
      rw [hdis]
      simp only [acceptsUndefinedOpt]
      exact dateSchema_optional f vs hv hany
    · have htype := parseShape_type_attr "id" pStrMin1 "time" _ j f (by decide) hpj
      have hstr : getStrProp f "type" = some "time" := by simp [getStrProp, htype]
      have hdis : makeZodSchemaFromJobInputSchema f =
          some (makeZodSchemaFromJobInputDateSchema f) := by
        unfold makeZodSchemaFromJobInputSchema
        rw [hstr]
        rfl
      rw [hdis]
      simp only [acceptsUndefinedOpt]
      exact dateSchema_optional f vs hv hany
    · have htype := parseShape_type_attr "id" pStrMin1 "month" _ j f (by decide) hpj
      have hstr : getStrProp f "type" = some "month" := by simp [getStrProp, htype]
      have hdis : makeZodSchemaFromJobInputSchema f =
          some (makeZodSchemaFromJobInputDateSchema f) := by
        unfold makeZodSchemaFromJobInputSchema
        rw [hstr]
        rfl
      rw [hdis]
      simp only [acceptsUndefinedOpt]
      exact dateSchema_optional f vs hv hany
    · have htype := parseShape_type_attr "id" pStrMin1 "week" _ j f (by decide) hpj
      have hstr : getStrProp f "type" = some "week" := by simp [getStrProp, htype]
      have hdis : makeZodSchemaFromJobInputSchema f =
          some (makeZodSchemaFromJobInputDateSchema f) := by
        unfold makeZodSchemaFromJobInputSchema
        rw [hstr]
        rfl
      rw [hdis]
      simp only [acceptsUndefinedOpt]
      exact dateSchema_optional f vs hv hany
    · have htype := parseShape_type_attr "id" pStrMin1 "color" _ j f (by decide) hpj
      have hstr : getStrProp f "type" = some "color" := by simp [getStrProp, htype]
      have hdis : makeZodSchemaFromJobInputSchema f =
          some (makeZodSchemaFromJobInputColorSchema f) := by
        unfold makeZodSchemaFromJobInputSchema
        rw [hstr]
        rfl
      rw [hdis]
      simp only [acceptsUndefinedOpt]
      unfold makeZodSchemaFromJobInputColorSchema
      rw [hv]
      exact zodReduce_optional _ _ _ hany
    · have htype := parseShape_type_attr "id" pStrMin1 "range" _ j f (by decide) hpj
      have hstr : getStrProp f "type" = some "range" := by simp [getStrProp, htype]
      have hdis : makeZodSchemaFromJobInputSchema f =
          some (makeZodSchemaFromJobInputRangeSchema f) := by
        unfold makeZodSchemaFromJobInputSchema
        rw [hstr]
        rfl
      rw [hdis]
      simp only [acceptsUndefinedOpt]
      unfold makeZodSchemaFromJobInputRangeSchema
      rw [hv]
      exact zodReduce_optional _ _ _ hany
    · have habs : getProp f "validations" = none :=
        parseShape_absent_key _ j f "validations" hpj (by decide)
      rw [habs] at hv
      exact Option.noConfusion hv
    · have htype := parseShape_type_attr "id" pStrMin1 "search" _ j f (by decide) hpj
      have hstr : getStrProp f "type" = some "search" := by simp [getStrProp, htype]
      have hdis : makeZodSchemaFromJobInputSchema f =
          some (makeZodSchemaFromJobInputSearchSchema f) := by
        unfold makeZodSchemaFromJobInputSchema
        rw [hstr]
        rfl
      rw [hdis]
      simp only [acceptsUndefinedOpt]
      unfold makeZodSchemaFromJobInputSearchSchema
      rw [hv]
      exact zodReduce_optional _ _ _ hany
    · have htype := parseShape_type_attr "id" pStrMin1 "checkbox" _ j f (by decide) hpj
      have hstr : getStrProp f "type" = some "checkbox" := by simp [getStrProp, htype]
      exact absurd hstr hc
    · have htype := parseShape_type_attr "id" pStrMin1 "radio" _ j f (by decide) hpj
      have hstr : getStrProp f "type" = some "radio" := by simp [getStrProp, htype]
      have hdis : makeZodSchemaFromJobInputSchema f =
          some (makeZodSchemaFromJobInputRadioSchema f) := by
        unfold makeZodSchemaFromJobInputSchema
        rw [hstr]
        rfl
      rw [hdis]
      simp only [acceptsUndefinedOpt]
      unfold makeZodSchemaFromJobInputRadioSchema
      rw [hv]
      exact zodReduce_optional _ _ _ hany

/-- Witness for C8 (amended) at a concrete input: a text field with an
`optional` rule. -/
theorem c8_optional_amended_witness :
    jobInputSchemaParse textOptField = some textOptField ∧
    hasOptionalRule textOptField = true ∧
    getStrProp textOptField "type" ≠ some "boolean" ∧
    getStrProp textOptField "type" ≠ some "checkbox" ∧
    (isOptional textOptField = true ↔ hasOptionalRule textOptField = true) ∧
    acceptsUndefinedOpt (makeZodSchemaFromJobInputSchema textOptField) = true :=
  ⟨rfl, rfl, by decide, by decide,
   c8_optional_amended.1 textOptField textOptField rfl,
   c8_optional_amended.2 textOptField textOptField rfl rfl (by decide) (by decide)⟩

/-- C8 counterexample: the claim as stated is false.  A `boolean` field
carrying an `optional` rule parses, reports `isOptional = true`, yet its
derived value-validator is plain `z.boolean()` — the boolean maker ignores
`validations`, so the derived validator does not accept an absent value. -/
theorem c8_optional_counterexample :
    jobInputSchemaParse boolOptField = some boolOptParsed ∧
    isOptional boolOptParsed = true ∧
    makeZodSchemaFromJobInputSchema boolOptParsed = some ZodS.boolean ∧
    acceptsUndefinedOpt (makeZodSchemaFromJobInputSchema boolOptParsed) = false :=
  ⟨rfl, rfl, rfl, rfl⟩

theorem isSingleOption_eq_spec (f : Json) :
    isSingleOption f = singleOptionFirstRuleSpec f := by
  unfold isSingleOption singleOptionFirstRuleSpec
  cases hts : getStrProp f "type" with
  | none => simp
  | some t =>
    by_cases ho : t = "option"
    · subst ho
      cases hv : getProp f "validations" with
      | none => simp
      | some v =>
        cases v with
        | arr xs => simp [jsTruthy]
        | null => simp [jsTruthy]
        | bool b => cases b <;> simp [jsTruthy]
        | num n => by_cases hn : n = 0 <;> simp [jsTruthy, hn]
        | str s => by_cases hs : s = "" <;> simp [jsTruthy, hs]
        | obj kvs => simp [jsTruthy]
    · by_cases hr : t = "radio"
      · subst hr
        cases hv : getProp f "validations" with
        | none => simp
        | some v =>
          cases v with
          | arr xs => simp [jsTruthy]
          | null => simp [jsTruthy]
          | bool b => cases b <;> simp [jsTruthy]
          | num n => by_cases hn : n = 0 <;> simp [jsTruthy, hn]
          | str s => by_cases hs : s = "" <;> simp [jsTruthy, hs]
          | obj kvs => simp [jsTruthy]
      · simp [ho, hr]

/-- C9 (amended): `isSingleOption` is true iff the field is of type
`option` or `radio` and the *first* `min` rule and the *first* `max` rule
of its `validations` each exist, carry a truthy `value`, and parse to `1`
(`singleOptionFirstRuleSpec` — not "contains some min/max rule valued 1").
The claim's concrete examples hold: an option field over three values with
`min=1,max=1` reports true, and with `min=1,max=3` reports false. -/
theorem c9_single_option_amended :
    (∀ (j f : Json), jobInputSchemaParse j = some f →
      isSingleOption f = singleOptionFirstRuleSpec f) ∧
    jobInputSchemaParse (optionFieldWith [minRule "1", maxRule "1"]) =
      some (optionFieldWith [minRule "1", maxRule "1"]) ∧
    isSingleOption (optionFieldWith [minRule "1", maxRule "1"]) = true ∧
    jobInputSchemaParse (optionFieldWith [minRule "1", maxRule "3"]) =
      some (optionFieldWith [minRule "1", maxRule "3"]) ∧
    isSingleOption (optionFieldWith [minRule "1", maxRule "3"]) = false :=
  ⟨fun _ f _ => isSingleOption_eq_spec f, rfl, rfl, rfl, rfl⟩

/-- Witness for C9 (amended) at a concrete input. -/
theorem c9_single_option_amended_witness :
    jobInputSchemaParse (optionFieldWith [minRule "1", maxRule "1"]) =
      some (optionFieldWith [minRule "1", maxRule "1"]) ∧
    isSingleOption (optionFieldWith [minRule "1", maxRule "1"]) =
      singleOptionFirstRuleSpec (optionFieldWith [minRule "1", maxRule "1"]) :=
  ⟨rfl,
   c9_single_option_amended.1 (optionFieldWith [minRule "1", maxRule "1"])
     (optionFieldWith [minRule "1", maxRule "1"]) rfl⟩

/-- C9 counterexample: the claim as stated is false.  The validated option
field whose `validations` are `[min="3", min="1", max="1"]` *contains* a
`min` rule valued `1` and a `max` rule valued `1` (and is of type
`option`), yet `isSingleOption` returns false: the source consults only
the first `min` rule, which parses to `3`. -/
theorem c9_single_option_counterexample :
    jobInputSchemaParse (optionFieldWith [minRule "3", minRule "1", maxRule "1"]) =
      some (optionFieldWith [minRule "3", minRule "1", maxRule "1"]) ∧
    getStrProp (optionFieldWith [minRule "3", minRule "1", maxRule "1"]) "type" = some "option" ∧
    hasRuleKindValued (optionFieldWith [minRule "3", minRule "1", maxRule "1"]) "min" "1" = true ∧
    hasRuleKindValued (optionFieldWith [minRule "3", minRule "1", maxRule "1"]) "max" "1" = true ∧
    isSingleOption (optionFieldWith [minRule "3", minRule "1", maxRule "1"]) = false :=
  ⟨rfl, rfl, by decide, by decide, rfl⟩
